import Mathlib

/-!
# Verification of the hl-agent Order Execution & Risk-Gated Trading Engine

Shallow embedding of the trading toolkit (`src/toolkit/hyperliquid-toolkit.ts`)
and the risk manager (`src/safety/risk-manager.ts`) of the hl-agent repository.

Modelling conventions:
* JavaScript `number` values are modelled as `ℚ` (the code only adds,
  multiplies, divides and compares; binary floating point representation
  error is outside the model).
* Millisecond timestamps (`Date.now()`) are modelled as `ℤ`.
* Optional JS fields are `Option` values.  JavaScript truthiness of a
  numeric option (`undefined`, `0` and `NaN` are falsy) is modelled by
  `truthyQ`, and the idiom `a || b` by `jsOr`.
* Thrown exceptions / rejected promises that the code catches and converts
  into `{success: false, error}` results are modelled with `Except` /
  explicit error outcomes.
* Network calls issued through the exchange / info clients are recorded in
  an event trace (`ToolkitEvent`); the responses the network would give are
  supplied by an `Env` value, so every function is executable.
-/

namespace HlAgent

/-- JS truthiness of an optional number: `undefined` and `0` are falsy. -/
def truthyQ : Option ℚ → Bool
  | none => false
  | some v => v != 0

/-- The JS idiom `a || b` for an optional number `a`: yields `b` whenever
`a` is absent or zero (falsy), otherwise the value of `a`. -/
def jsOr (a : Option ℚ) (b : ℚ) : ℚ :=
  match a with
  | none => b
  | some v => if v = 0 then b else v

/-! ## Data model (`src/types/index.ts`) -/

/-- `OrderSide` from `src/types/index.ts`. -/
inductive Side
  | long
  | short
  | buy
  | sell
deriving DecidableEq, Repr

/-- `OrderType` from `src/types/index.ts` (the toolkit only ever branches on
`'limit'`; the stop-loss/take-profit kinds are carried along unchanged). -/
inductive OrderType
  | market
  | limit
  | stopLoss
  | takeProfit
deriving DecidableEq, Repr

/-- Market kind, the normalized value of `(params.market || 'perp').toLowerCase()`. -/
inductive Market
  | spot
  | perp
deriving DecidableEq, Repr

/-- `Position` from `src/types/index.ts`, restricted to the fields the
verified operations read (`coin`, `side`, `size`, `unrealizedPnl`). -/
structure Position where
  coin : String
  side : Side
  size : ℚ
  unrealizedPnl : ℚ
deriving DecidableEq, Repr

/-- `RiskConfig` from `src/types/index.ts`. -/
structure RiskConfig where
  maxLeverage : ℚ
  maxPositionSizeUsd : ℚ
  maxDailyLoss : Option ℚ := none
  maxDrawdownPercent : Option ℚ := none
  /-- optional boolean; `undefined` and `false` behave identically in the
  code, so it is modelled as a plain `Bool`. -/
  requireStopLoss : Bool := false
  maxOpenPositions : Option ℚ := none
deriving DecidableEq, Repr

/-- `OpenPositionParams` from `src/types/index.ts`. -/
structure OpenPositionParams where
  coin : String
  side : Side
  market : Option Market := none
  sizeUsd : Option ℚ := none
  sizeCoin : Option ℚ := none
  leverage : Option ℚ := none
  stopLossPrice : Option ℚ := none
  stopLossPercent : Option ℚ := none
  takeProfitPrice : Option ℚ := none
  takeProfitPercent : Option ℚ := none
  slippagePercent : Option ℚ := none
  orderType : Option OrderType := none
  limitPrice : Option ℚ := none
deriving DecidableEq, Repr

/-- `ClosePositionParams` from `src/types/index.ts`. -/
structure ClosePositionParams where
  coin : String
  percent : Option ℚ := none
  slippagePercent : Option ℚ := none
deriving DecidableEq, Repr

/-! ## RiskManager (`src/safety/risk-manager.ts`) -/

/-- One entry of `#tradesLog`. -/
structure TradeEntry where
  timestamp : ℤ
  pnl : ℚ
deriving DecidableEq, Repr

/-- The mutable state of a `RiskManager` instance: `#config`, `#dailyPnl`,
`#dailyPnlResetTime` and `#tradesLog` (oldest entry first). -/
structure RiskState where
  config : RiskConfig
  dailyPnl : ℚ := 0
  dailyPnlResetTime : ℤ := 0
  tradesLog : List TradeEntry := []
deriving DecidableEq, Repr

/-- The structured content of a denial `reason` string produced by
`checkOpenPosition` (the numeric payloads are the interpolated values; the
`toFixed` presentation applied when building the string is not modelled). -/
inductive DenyReason
  | leverageExceeded (leverage maxLeverage : ℚ)
  | positionSizeExceeded (sizeUsd maxSizeUsd : ℚ)
  | tooManyPositions (maxOpenPositions : ℚ)
  | dailyLossReached (absDailyPnl maxDailyLoss : ℚ)
  | drawdownExceeded (drawdownPercent maxDrawdownPercent : ℚ)
  | stopLossRequired
  | insufficientMargin (marginRequired accountBalance : ℚ)
deriving DecidableEq, Repr

/-- The structured content of a warning string produced by `checkOpenPosition`. -/
inductive RiskWarning
  | closeToDailyLoss (absDailyPnl maxDailyLoss : ℚ)
  | closeToDrawdown (drawdownPercent maxDrawdownPercent : ℚ)
  | highMarginUsage (marginUsedPercent : ℚ)
deriving DecidableEq, Repr

/-- `RiskCheckResult`; an empty `warnings` list models the `undefined`
warnings field. -/
structure RiskCheckResult where
  allowed : Bool
  reason : Option DenyReason := none
  warnings : List RiskWarning := []
deriving DecidableEq, Repr

/-- 24 hours in milliseconds (`const dayMs` in `updateDailyPnl`). -/
def dayMs : ℤ := 24 * 60 * 60 * 1000

/-- `updateDailyPnl`: lazy daily rollover — reset the counter and restart the
window if at least 24h have elapsed since `#dailyPnlResetTime`. -/
def updateDailyPnl (s : RiskState) (now : ℤ) : RiskState :=
  if now - s.dailyPnlResetTime ≥ dayMs then
    { s with dailyPnl := 0, dailyPnlResetTime := now }
  else s

/-- Condition of the leverage check:
`params.leverage && params.leverage > this.#config.maxLeverage`. -/
def levCheckFails (cfg : RiskConfig) (params : OpenPositionParams) : Bool :=
  truthyQ params.leverage && decide (params.leverage.getD 0 > cfg.maxLeverage)

/-- Condition of the notional check: `positionSizeUsd > maxPositionSizeUsd`
where `positionSizeUsd = params.sizeUsd || 0`. -/
def sizeCheckFails (cfg : RiskConfig) (params : OpenPositionParams) : Bool :=
  decide (jsOr params.sizeUsd 0 > cfg.maxPositionSizeUsd)

/-- Condition of the open-position-count check (an existing position in the
same coin does not increase the effective count). -/
def countCheckFails (cfg : RiskConfig) (params : OpenPositionParams)
    (currentPositions : List Position) : Bool :=
  truthyQ cfg.maxOpenPositions &&
    (let existing := currentPositions.find? (fun p => p.coin == params.coin)
     let effectivePositionCount : ℚ :=
       if existing.isSome then currentPositions.length else currentPositions.length + 1
     decide (effectivePositionCount > cfg.maxOpenPositions.getD 0))

/-- Condition of the daily-loss check, evaluated on the (already rolled-over)
daily PnL: `Math.abs(dailyPnl) >= maxDailyLoss`. -/
def dailyLossCheckFails (cfg : RiskConfig) (pnl : ℚ) : Bool :=
  truthyQ cfg.maxDailyLoss && decide (|pnl| ≥ cfg.maxDailyLoss.getD 0)

/-- `(Math.abs(totalUnrealizedPnl) / accountBalance) * 100`. -/
def drawdownOf (currentPositions : List Position) (accountBalance : ℚ) : ℚ :=
  |currentPositions.foldl (fun sum p => sum + p.unrealizedPnl) 0| / accountBalance * 100

/-- Condition of the drawdown check. -/
def drawdownCheckFails (cfg : RiskConfig) (currentPositions : List Position)
    (accountBalance : ℚ) : Bool :=
  truthyQ cfg.maxDrawdownPercent &&
    decide (drawdownOf currentPositions accountBalance ≥ cfg.maxDrawdownPercent.getD 0)

/-- Condition of the stop-loss mandate check. -/
def stopLossCheckFails (cfg : RiskConfig) (params : OpenPositionParams) : Bool :=
  cfg.requireStopLoss && !truthyQ params.stopLossPrice && !truthyQ params.stopLossPercent

/-- Condition of the margin check:
`marginRequired > accountBalance * 0.9` with
`marginRequired = positionSizeUsd / (params.leverage || 1)`. -/
def marginCheckFails (params : OpenPositionParams) (accountBalance : ℚ) : Bool :=
  decide (jsOr params.sizeUsd 0 / jsOr params.leverage 1 > accountBalance * (9 / 10))

/-- `RiskManager.checkOpenPosition`.  The returned pair carries the
`RiskCheckResult` together with the instance state after the call (the
daily-loss branch runs the lazy rollover as a side effect). -/
def checkOpenPosition (s : RiskState) (now : ℤ) (params : OpenPositionParams)
    (currentPositions : List Position) (accountBalance : ℚ) :
    RiskCheckResult × RiskState :=
  if levCheckFails s.config params then
    ({ allowed := false,
       reason := some (.leverageExceeded (params.leverage.getD 0) s.config.maxLeverage) }, s)
  else if sizeCheckFails s.config params then
    ({ allowed := false,
       reason := some (.positionSizeExceeded (jsOr params.sizeUsd 0)
         s.config.maxPositionSizeUsd) }, s)
  else if countCheckFails s.config params currentPositions then
    ({ allowed := false,
       reason := some (.tooManyPositions (s.config.maxOpenPositions.getD 0)) }, s)
  else
    -- `if (this.#config.maxDailyLoss) { this.updateDailyPnl(); ... }`
    let s1 := if truthyQ s.config.maxDailyLoss then updateDailyPnl s now else s
    if dailyLossCheckFails s.config s1.dailyPnl then
      ({ allowed := false,
         reason := some (.dailyLossReached |s1.dailyPnl| (s.config.maxDailyLoss.getD 0)) }, s1)
    else
      -- potentialLoss = positionSizeUsd * 0.1
      let warnings1 : List RiskWarning :=
        if truthyQ s.config.maxDailyLoss &&
            decide (|s1.dailyPnl| + jsOr params.sizeUsd 0 * (1 / 10) ≥
              s.config.maxDailyLoss.getD 0) then
          [.closeToDailyLoss |s1.dailyPnl| (s.config.maxDailyLoss.getD 0)]
        else []
      if drawdownCheckFails s.config currentPositions accountBalance then
        ({ allowed := false,
           reason := some (.drawdownExceeded (drawdownOf currentPositions accountBalance)
             (s.config.maxDrawdownPercent.getD 0)) }, s1)
      else
        let warnings2 : List RiskWarning := warnings1 ++
          (if truthyQ s.config.maxDrawdownPercent &&
              decide (drawdownOf currentPositions accountBalance ≥
                s.config.maxDrawdownPercent.getD 0 * (8 / 10)) then
            [.closeToDrawdown (drawdownOf currentPositions accountBalance)
              (s.config.maxDrawdownPercent.getD 0)]
          else [])
        if stopLossCheckFails s.config params then
          ({ allowed := false, reason := some .stopLossRequired }, s1)
        else if marginCheckFails params accountBalance then
          ({ allowed := false,
             reason := some (.insufficientMargin
               (jsOr params.sizeUsd 0 / jsOr params.leverage 1) accountBalance) }, s1)
        else
          let warnings3 : List RiskWarning := warnings2 ++
            (if decide (jsOr params.sizeUsd 0 / jsOr params.leverage 1 >
                accountBalance * (7 / 10)) then
              [.highMarginUsage (jsOr params.sizeUsd 0 / jsOr params.leverage 1 /
                accountBalance * 100)]
            else [])
          ({ allowed := true, warnings := warnings3 }, s1)

/-- `RiskManager.recordTrade`: rollover, accumulate, append a log entry, and
keep only the most recent 1000 entries (`slice(-1000)`). -/
def recordTrade (s : RiskState) (now : ℤ) (pnl : ℚ) : RiskState :=
  let s1 := updateDailyPnl s now
  let log := s1.tradesLog ++ [⟨now, pnl⟩]
  let log2 := if log.length > 1000 then log.drop (log.length - 1000) else log
  { s1 with dailyPnl := s1.dailyPnl + pnl, tradesLog := log2 }

/-- `RiskManager.getDailyPnl` (result, state after the lazy rollover). -/
def getDailyPnl (s : RiskState) (now : ℤ) : ℚ × RiskState :=
  let s1 := updateDailyPnl s now
  (s1.dailyPnl, s1)

/-- The record returned by `RiskManager.getStats`. -/
structure RiskStats where
  dailyPnl : ℚ
  totalTrades : ℕ
  avgPnl : ℚ
  winRate : ℚ
deriving DecidableEq, Repr

/-- `RiskManager.getStats` (result, state after the lazy rollover). -/
def getStats (s : RiskState) (now : ℤ) : RiskStats × RiskState :=
  let s1 := updateDailyPnl s now
  let dailyTrades := s1.tradesLog.filter (fun t => now - t.timestamp < dayMs)
  let totalPnl := (dailyTrades.map (fun t => t.pnl)).sum
  let winningTrades := (dailyTrades.filter (fun t => t.pnl > 0)).length
  ({ dailyPnl := s1.dailyPnl,
     totalTrades := dailyTrades.length,
     avgPnl := if dailyTrades.length > 0 then totalPnl / dailyTrades.length else 0,
     winRate := if dailyTrades.length > 0 then
       (winningTrades / dailyTrades.length : ℚ) * 100 else 0 }, s1)

/-- Errors thrown by `validateConfig` (the messages of the five `throw new
Error(...)` statements). -/
inductive ConfigErr
  | badLeverage
  | badPositionSize
  | badDailyLoss
  | badDrawdown
  | badOpenPositions
deriving DecidableEq, Repr

/-- `RiskManager.validateConfig`.  Note the JS truthiness guards: an optional
limit that is present but `0` skips its range check. -/
def validateConfig (c : RiskConfig) : Except ConfigErr RiskConfig :=
  if c.maxLeverage ≤ 0 ∨ c.maxLeverage > 50 then .error .badLeverage
  else if c.maxPositionSizeUsd ≤ 0 then .error .badPositionSize
  else if truthyQ c.maxDailyLoss && decide (c.maxDailyLoss.getD 0 ≤ 0) then
    .error .badDailyLoss
  else if truthyQ c.maxDrawdownPercent &&
      decide (c.maxDrawdownPercent.getD 0 ≤ 0 ∨ c.maxDrawdownPercent.getD 0 > 100) then
    .error .badDrawdown
  else if truthyQ c.maxOpenPositions && decide (c.maxOpenPositions.getD 0 ≤ 0) then
    .error .badOpenPositions
  else .ok c

/-- `Partial<RiskConfig>` as used by `updateConfig`.  For the optional fields
of `RiskConfig`, an explicitly supplied `undefined` (`some none`) also
overrides under object-spread semantics. -/
structure PartialRiskConfig where
  maxLeverage : Option ℚ := none
  maxPositionSizeUsd : Option ℚ := none
  maxDailyLoss : Option (Option ℚ) := none
  maxDrawdownPercent : Option (Option ℚ) := none
  requireStopLoss : Option Bool := none
  maxOpenPositions : Option (Option ℚ) := none
deriving DecidableEq, Repr

/-- `{ ...this.#config, ...config }`. -/
def mergeConfig (c : RiskConfig) (p : PartialRiskConfig) : RiskConfig :=
  { maxLeverage := p.maxLeverage.getD c.maxLeverage,
    maxPositionSizeUsd := p.maxPositionSizeUsd.getD c.maxPositionSizeUsd,
    maxDailyLoss := p.maxDailyLoss.getD c.maxDailyLoss,
    maxDrawdownPercent := p.maxDrawdownPercent.getD c.maxDrawdownPercent,
    requireStopLoss := p.requireStopLoss.getD c.requireStopLoss,
    maxOpenPositions := p.maxOpenPositions.getD c.maxOpenPositions }

/-- `RiskManager.updateConfig`: validate the merged config; a thrown
validation error is an `Except.error`. -/
def updateConfig (s : RiskState) (p : PartialRiskConfig) : Except ConfigErr RiskState :=
  match validateConfig (mergeConfig s.config p) with
  | .ok c => .ok { s with config := c }
  | .error e => .error e

/-- The instance state after calling `updateConfig`: when validation throws,
the assignment to `this.#config` never runs, so the prior state is kept. -/
def updateConfigRun (s : RiskState) (p : PartialRiskConfig) : RiskState :=
  match updateConfig s p with
  | .ok s' => s'
  | .error _ => s

/-! ## Numeric wire formats (JS `toFixed` / `toPrecision`)

The toolkit formats prices with `Number.prototype.toFixed(5)` (limit and
trigger prices) and `parseFloat(x.toPrecision(5)).toString()` (market
prices).  Both ECMAScript operations round to the *nearest* representable
decimal, picking the larger candidate on ties; the functions below give the
exact rational denoted by the resulting decimal string. -/

/-- `x.toFixed(digits)` as a rational: round to `digits` decimal places,
ties to the larger candidate (away from zero for positive inputs). -/
def jsToFixed (x : ℚ) (digits : ℕ) : ℚ :=
  (⌊x * 10 ^ digits + 1 / 2⌋ : ℚ) / 10 ^ digits

/-- `log10Aux fuel n`: number of digits of `n` beyond the first (fuel-based
structural recursion so that the kernel can evaluate it). -/
def log10Aux : ℕ → ℕ → ℕ
  | 0, _ => 0
  | fuel + 1, n => if n < 10 then 0 else log10Aux fuel (n / 10) + 1

/-- `natLog10 n = ⌊log10 n⌋` for `n ≥ 1`. -/
def natLog10 (n : ℕ) : ℕ := log10Aux n n

/-- `findKAux fuel num den k`: the smallest `k' ≥ k` with
`num * 10 ^ k' ≥ den` (within `fuel` steps). -/
def findKAux : ℕ → ℕ → ℕ → ℕ → ℕ
  | 0, _, _, k => k
  | fuel + 1, num, den, k => if den ≤ num * 10 ^ k then k else findKAux fuel num den (k + 1)

/-- Decimal exponent of a positive rational: the `e` with
`10 ^ e ≤ x < 10 ^ (e + 1)` (junk value for `x ≤ 0`). -/
def qExp10 (x : ℚ) : ℤ :=
  if 1 ≤ x then (natLog10 ⌊x⌋.toNat : ℤ)
  else -(findKAux (natLog10 x.den + 1) x.num.toNat x.den 1 : ℤ)

/-- `x.toPrecision(p)` as a rational: round the magnitude to `p` significant
figures, ties to the larger candidate, keeping the sign. -/
def jsToPrecision (x : ℚ) (p : ℕ) : ℚ :=
  if x = 0 then 0
  else
    let a := |x|
    let scale : ℚ := 10 ^ (qExp10 a - p + 1)
    let n : ℤ := ⌊a / scale + 1 / 2⌋
    (if x < 0 then (-1 : ℚ) else 1) * (n * scale)

/-- Modelled from the spec: "Truncate to the exchange's significant-figure
convention (5 significant figures in the source)" — truncation (not
rounding) of the magnitude to `p` significant figures.  Used to compare the
spec's wording with the code's `toPrecision` rounding. -/
def truncToSigFigs (x : ℚ) (p : ℕ) : ℚ :=
  if x = 0 then 0
  else
    let a := |x|
    let scale : ℚ := 10 ^ (qExp10 a - p + 1)
    let n : ℤ := ⌊a / scale⌋
    (if x < 0 then (-1 : ℚ) else 1) * (n * scale)

/-- `String.prototype.toUpperCase()` (for the ASCII ticker symbols the
toolkit handles), as a per-character map. -/
def jsToUpper (s : String) : String := ⟨s.data.map Char.toUpper⟩

/-! ## Toolkit (`src/toolkit/hyperliquid-toolkit.ts`) -/

/-- The error cases of the toolkit operations: each constructor corresponds
to one `throw new Error(...)` / early failure return in the source (the
interpolated message parts are the payloads). -/
inductive ToolkitErr
  | fetchAccountDataFailed
  | riskDenied (reason : Option DenyReason)
  | unknownAsset (market : Market) (coin : String)
  | noPriceAvailable (coin : String)
  | sizeNotSpecified
  | sizeMustBePositive
  | sizeTooSmall (decimals : ℕ)
  | noBook (coin : String)
  | noLiquidity (coin : String)
  | orderFailed (error : String)
  | missingStatuses
  | noPositionFound (coin : String)
  | fetchPositionsFailed
deriving DecidableEq, Repr

/-- Rounding direction of `formatSize` (`'down' | 'up'`). -/
inductive Rounding
  | down
  | up
deriving DecidableEq, Repr

/-- The effect of `formatSize`'s final `.replace(/\.?0+$/, '')` on a bare
integer string (the `toFixed(0)` case): the pattern's dot is *optional*, so
its leftmost match on a digit string is the maximal run of trailing zero
digits, which the replace deletes — `'10'` becomes `'1'`, `'120'` becomes
`'12'`.  Fuel-based structural recursion (each step divides by 10, so `n`
itself is enough fuel) so that the kernel can evaluate it. -/
def stripZerosAux : ℕ → ℕ → ℕ
  | 0, n => n
  | fuel + 1, n => if n % 10 = 0 ∧ n ≠ 0 then stripZerosAux fuel (n / 10) else n

/-- The integer denoted by the decimal digits of `n` with the trailing zero
digits removed. -/
def stripZeros (n : ℕ) : ℕ := stripZerosAux n n

/-- `HyperliquidAgentToolkit.formatSize`, returning the rational denoted by
the produced size string
`roundedRaw.toFixed(decimals).replace(/\.?0+$/, '')`.  For `decimals ≥ 1`
the string has a decimal point and the leftmost match of the pattern can
only start at or after it (`0+` cannot span the dot, and the pattern's
optional dot must precede all its zeros), so the replace strips fractional
trailing zeros only and the string still denotes `roundedRaw`.  For
`decimals = 0` the string is the bare integer `roundedRaw`, the optional
`\.?` matches the empty string, and the replace deletes the integer's own
trailing zero digits (`stripZeros`): `'10'` becomes `'1'`.  A `ℚ` input is
always finite, so `!Number.isFinite` cannot fire. -/
def formatSize (size : ℚ) (decimals : ℕ) (rounding : Rounding) : Except ToolkitErr ℚ :=
  if size ≤ 0 then .error .sizeMustBePositive
  else
    let factor : ℚ := 10 ^ decimals
    let m : ℤ :=
      match rounding with
      | .up => ⌈size * factor⌉
      | .down => ⌊size * factor⌋
    let roundedRaw : ℚ := (m : ℚ) / factor
    if roundedRaw ≤ 0 then .error (.sizeTooSmall decimals)
    else if decimals = 0 then .ok (stripZeros m.toNat : ℚ)
    else .ok roundedRaw

/-- One perp entry of the `#assetMap` cache: `{ index, szDecimals }`. -/
structure PerpInfo where
  index : ℤ
  szDecimals : ℕ
deriving DecidableEq, Repr

/-- One spot entry of the `#spotAssetMap` cache:
`{ index, pairName, szDecimals }` (the universe index, before the
`10000 +` offset is applied). -/
structure SpotInfo where
  index : ℤ
  pairName : String
  szDecimals : ℕ
deriving DecidableEq, Repr

/-- The portion of `clearinghouseState` the toolkit reads for risk checks:
`availableBalance = crossMarginSummary.accountValue` (the only balance field
`openPosition` consults). -/
structure Balance where
  availableBalance : ℚ
deriving DecidableEq, Repr

/-- One raw per-order status payload from the exchange response, as the
shapes the toolkit distinguishes (`error` / `resting` / `filled` / anything
else such as `waitingForFill`). -/
inductive RawStatus
  | errS (error : String)
  | restingS (oid : ℤ)
  | filledS (oid : ℤ)
  | otherS
deriving DecidableEq, Repr

/-- `HyperliquidAgentToolkit.isErrorStatus`: `'error' in status`. -/
def isErrorStatus : RawStatus → Bool
  | .errS _ => true
  | _ => false

/-- `HyperliquidAgentToolkit.extractOrderId`: the `oid` of a resting or
filled status, and `0` for statuses without an order id. -/
def extractOrderId : RawStatus → ℤ
  | .errS _ => 0
  | .restingS oid => oid
  | .filledS oid => oid
  | .otherS => 0

/-- Time-in-force values used by the toolkit. -/
inductive Tif
  | ioc
  | gtc
deriving DecidableEq, Repr

/-- `tpsl` tag of a trigger order. -/
inductive Tpsl
  | sl
  | tp
deriving DecidableEq, Repr

/-- The `t` field of a submitted order. -/
inductive OrderT
  | limit (tif : Tif)
  | trigger (triggerPx : ℚ) (isMarket : Bool) (tpsl : Tpsl)
deriving DecidableEq, Repr

/-- The `grouping` field of an order submission. -/
inductive Grouping
  | na
  | positionTpsl
deriving DecidableEq, Repr

/-- One order as submitted to `exchangeClient.order` (`p` and `s` are the
rationals denoted by the submitted price and size strings). -/
structure OrderReq where
  a : ℤ
  b : Bool
  p : ℚ
  s : ℚ
  r : Bool
  t : OrderT
  grouping : Grouping
deriving DecidableEq, Repr

/-- The network interactions of one toolkit call, in issue order.
`fetchPositions` / `fetchBalance` stand for the composite
`getPositions` / `getBalance` helpers (each a `clearinghouseState` and, for
positions, an `allMids` request); `riskCheck` marks the (local) invocation
of `RiskManager.checkOpenPosition`. -/
inductive ToolkitEvent
  | fetchPositions
  | fetchBalance
  | riskCheck
  | fetchAssetMeta (market : Market)
  | fetchBook (coin : String)
  | updateLeverage (asset : ℤ) (isCross : Bool) (leverage : ℚ)
  | fetchMids
  | submitOrder (req : OrderReq)
deriving DecidableEq, Repr

/-- The gateway responses one toolkit call can consume.  The universe
parsing of `meta()` / `spotMeta()` into the asset maps is abstracted into
the lookup functions `perpAssets` / `spotAssets` (no verified claim
concerns the map construction itself); `mids c` is
`parseFloat(mids[c] || '0')`; `orderStatuses` is the
`response.data.statuses` array of the main order submission. -/
structure Env where
  now : ℤ
  positions : Option (List Position)
  balance : Option Balance
  perpAssets : String → Option PerpInfo
  spotAssets : String → Option SpotInfo
  book : String → Option (ℚ × ℚ)
  orderStatuses : List RawStatus
  mids : String → ℚ

/-- The toolkit instance state: the optional `RiskManager`, the
`#defaultSlippage` (`config.defaultSlippagePercent || 1`), and whether the
`#assetMap` / `#spotAssetMap` caches are populated. -/
structure ToolkitState where
  riskManager : Option RiskState
  defaultSlippage : ℚ := 1
  perpMapLoaded : Bool := false
  spotMapLoaded : Bool := false
deriving DecidableEq, Repr

/-- The outcome of a toolkit action: `ok orderId` for
`{success: true, data: {orderId}}`, `err e` for `{success: false, error}`. -/
inductive Outcome
  | ok (orderId : ℤ)
  | err (e : ToolkitErr)
deriving DecidableEq, Repr

/-- `HyperliquidAgentToolkit.getAssetIndex`: resolve a coin to
`(assetIndex, pairName, szDecimals)`; spot indices are offset by 10000; the
metadata fetch happens only on a cold cache. -/
def getAssetIndex (st : ToolkitState) (env : Env) (coin : String) (market : Market) :
    Except ToolkitErr (ℤ × String × ℕ) × ToolkitState × List ToolkitEvent :=
  match market with
  | .spot =>
    let st' := { st with spotMapLoaded := true }
    let tr : List ToolkitEvent := if st.spotMapLoaded then [] else [.fetchAssetMeta .spot]
    match env.spotAssets (jsToUpper coin) with
    | none => (.error (.unknownAsset .spot coin), st', tr)
    | some info => (.ok (10000 + info.index, info.pairName, info.szDecimals), st', tr)
  | .perp =>
    let st' := { st with perpMapLoaded := true }
    let tr : List ToolkitEvent := if st.perpMapLoaded then [] else [.fetchAssetMeta .perp]
    match env.perpAssets (jsToUpper coin) with
    | none => (.error (.unknownAsset .perp coin), st', tr)
    | some info => (.ok (info.index, coin, info.szDecimals), st', tr)

/-- `HyperliquidAgentToolkit.getBookTopLevels`: read the top of book;
missing book or a zero (falsy) best bid/ask is an error. -/
def getBookTopLevels (env : Env) (coin : String) :
    Except ToolkitErr (ℚ × ℚ) × List ToolkitEvent :=
  (match env.book coin with
   | none => .error (.noBook coin)
   | some (bestBid, bestAsk) =>
     if bestBid = 0 ∨ bestAsk = 0 then .error (.noLiquidity coin)
     else .ok (bestBid, bestAsk),
   [.fetchBook coin])

/-- `HyperliquidAgentToolkit.getMidPriceFromTop`. -/
def getMidPriceFromTop : Option (ℚ × ℚ) → ℚ
  | none => 0
  | some (bestBid, bestAsk) => (bestBid + bestAsk) / 2

/-- `const isLimitOrder = params.orderType === 'limit' && !!params.limitPrice`. -/
def isLimitOrderP (params : OpenPositionParams) : Bool :=
  decide (params.orderType = some OrderType.limit) && truthyQ params.limitPrice

/-- The conditional top-of-book prefetch of `openPosition`:
`if (!isLimitOrder || !!params.sizeUsd) bookTop = await this.getBookTopLevels(pairName)`. -/
def bookPrefetch (env : Env) (pairName : String) (params : OpenPositionParams)
    (isLimitOrder : Bool) : Except ToolkitErr (Option (ℚ × ℚ)) × List ToolkitEvent :=
  if !isLimitOrder || truthyQ params.sizeUsd then
    match getBookTopLevels env pairName with
    | (.error e, tr) => (.error e, tr)
    | (.ok bt, tr) => (.ok (some bt), tr)
  else (.ok none, [])

/-- The order-size block of `openPosition`: a `sizeUsd` request is divided
by the reference price (the caller's limit price for limit orders, the
mid-price otherwise) and rounded up; a `sizeCoin` request is rounded down
(`params.limitPrice!` is modelled by `getD 0`; `isLimitOrder` guarantees a
truthy limit price on that path). -/
def computeOrderSize (params : OpenPositionParams) (szDecimals : ℕ)
    (isLimitOrder : Bool) (bookTop : Option (ℚ × ℚ)) : Except ToolkitErr ℚ :=
  if truthyQ params.sizeUsd then
    let price := if isLimitOrder then params.limitPrice.getD 0 else getMidPriceFromTop bookTop
    if price = 0 then .error (.noPriceAvailable params.coin)
    else formatSize (params.sizeUsd.getD 0 / price) szDecimals .up
  else if truthyQ params.sizeCoin then
    formatSize (params.sizeCoin.getD 0) szDecimals .down
  else .error .sizeNotSpecified

/-- The order-price block of `openPosition`: a caller-supplied (truthy)
limit price is formatted with `toFixed(5)` and submitted GTC; otherwise the
top of book (the prefetched one, or a fresh fetch — dead in practice) is
buffered by the slippage fraction and rounded by
`parseFloat(rawPrice.toPrecision(5))`, submitted IOC. -/
def computeOrderPrice (env : Env) (pairName : String) (params : OpenPositionParams)
    (defaultSlippage : ℚ) (isBuy : Bool) (bookTop : Option (ℚ × ℚ)) :
    Except ToolkitErr (ℚ × Tif) × List ToolkitEvent :=
  if decide (params.orderType = some OrderType.limit) && truthyQ params.limitPrice then
    (.ok (jsToFixed (params.limitPrice.getD 0) 5, .gtc), [])
  else
    match bookTop with
    | some (bestBid, bestAsk) =>
      let slippage := jsOr params.slippagePercent defaultSlippage / 100
      let rawPrice := if isBuy then bestAsk * (1 + slippage) else bestBid * (1 - slippage)
      (.ok (jsToPrecision rawPrice 5, .ioc), [])
    | none =>
      match getBookTopLevels env pairName with
      | (.error e, tr) => (.error e, tr)
      | (.ok (bestBid, bestAsk), tr) =>
        let slippage := jsOr params.slippagePercent defaultSlippage / 100
        let rawPrice := if isBuy then bestAsk * (1 + slippage) else bestBid * (1 - slippage)
        (.ok (jsToPrecision rawPrice 5, .ioc), tr)

/-- The risk-check block of `openPosition`
(`if (this.#riskManager && market === 'perp') { ... }`): fetch positions
and balance, run `checkOpenPosition`, and deny or pass.  Returns the check
outcome, the risk-manager state after the call (the daily-loss rollover
mutates it even on denial) and the trace. -/
def riskGate (st : ToolkitState) (env : Env) (params : OpenPositionParams)
    (market : Market) :
    Except ToolkitErr Unit × Option RiskState × List ToolkitEvent :=
  match st.riskManager with
  | some rs =>
    if market = .perp then
      match env.positions, env.balance with
      | some ps, some bal =>
        let res := checkOpenPosition rs env.now params ps bal.availableBalance
        if res.1.allowed then
          (.ok (), some res.2, [.fetchPositions, .fetchBalance, .riskCheck])
        else
          (.error (.riskDenied res.1.reason), some res.2,
            [.fetchPositions, .fetchBalance, .riskCheck])
      | _, _ => (.error .fetchAccountDataFailed, some rs, [.fetchPositions, .fetchBalance])
    else (.ok (), some rs, [])
  | none => (.ok (), none, [])

/-- `HyperliquidAgentToolkit.openPosition` after the risk gate: asset
resolution, top-of-book prefetch, sizing, leverage update (perps only),
pricing, the main order submission and its status handling, and the
optional stop-loss / take-profit trigger legs (their submission results are
not awaited for errors in the source, so only their trace matters). -/
def openPositionAfterGate (st1 : ToolkitState) (env : Env)
    (params : OpenPositionParams) (market : Market) :
    Outcome × ToolkitState × List ToolkitEvent :=
  let normalizedCoin := jsToUpper params.coin
  match getAssetIndex st1 env normalizedCoin market with
  | (.error e, st2, tr2) => (.err e, st2, tr2)
  | (.ok (assetIndex, pairName, szDecimals), st2, tr2) =>
    let isBuy : Bool := params.side == Side.long || params.side == Side.buy
    let leverage := jsOr params.leverage 1
    let isSpot : Bool := market == Market.spot
    let isLimit := isLimitOrderP params
    match bookPrefetch env pairName params isLimit with
    | (.error e, tr3) => (.err e, st2, tr2 ++ tr3)
    | (.ok bookTop, tr3) =>
      match computeOrderSize params szDecimals isLimit bookTop with
      | .error e => (.err e, st2, tr2 ++ tr3)
      | .ok orderSize =>
        let tr4 : List ToolkitEvent :=
          if !isSpot then [.updateLeverage assetIndex true leverage] else []
        match computeOrderPrice env pairName params st1.defaultSlippage isBuy bookTop with
        | (.error e, tr5) => (.err e, st2, tr2 ++ tr3 ++ tr4 ++ tr5)
        | (.ok (orderPrice, tif), tr5) =>
          let mainReq : OrderReq :=
            ⟨assetIndex, isBuy, orderPrice, orderSize, false, .limit tif, .na⟩
          let tr6 := tr2 ++ tr3 ++ tr4 ++ tr5 ++ [ToolkitEvent.submitOrder mainReq]
          match env.orderStatuses with
          | [] => (.err .missingStatuses, st2, tr6)
          | status :: _ =>
            match status with
            | .errS msg => (.err (.orderFailed msg), st2, tr6)
            | _ =>
              let orderId := extractOrderId status
              if isSpot then (.ok orderId, st2, tr6)
              else
                let slTrace : List ToolkitEvent :=
                  if truthyQ params.stopLossPrice || truthyQ params.stopLossPercent then
                    let currentPrice := env.mids normalizedCoin
                    let stopPrice := jsOr params.stopLossPrice
                      (if isBuy then currentPrice * (1 - params.stopLossPercent.getD 0 / 100)
                       else currentPrice * (1 + params.stopLossPercent.getD 0 / 100))
                    [.fetchMids, .submitOrder ⟨assetIndex, !isBuy, jsToFixed stopPrice 5,
                      orderSize, true, .trigger (jsToFixed stopPrice 5) true .sl, .positionTpsl⟩]
                  else []
                let tpTrace : List ToolkitEvent :=
                  if truthyQ params.takeProfitPrice || truthyQ params.takeProfitPercent then
                    let currentPrice := env.mids normalizedCoin
                    let tpPrice := jsOr params.takeProfitPrice
                      (if isBuy then currentPrice * (1 + params.takeProfitPercent.getD 0 / 100)
                       else currentPrice * (1 - params.takeProfitPercent.getD 0 / 100))
                    [.fetchMids, .submitOrder ⟨assetIndex, !isBuy, jsToFixed tpPrice 5,
                      orderSize, true, .trigger (jsToFixed tpPrice 5) true .tp, .positionTpsl⟩]
                  else []
                (.ok orderId, st2, tr6 ++ slTrace ++ tpTrace)

/-- `HyperliquidAgentToolkit.openPosition`: normalize the market, run the
risk gate, then the execution pipeline.  Returns the action outcome, the
toolkit state after the call, and the trace of network interactions in
issue order. -/
def openPosition (st : ToolkitState) (env : Env) (params : OpenPositionParams) :
    Outcome × ToolkitState × List ToolkitEvent :=
  let market := params.market.getD Market.perp
  match riskGate st env params market with
  | (.error e, rm, tr1) => (.err e, { st with riskManager := rm }, tr1)
  | (.ok _, rm, tr1) =>
    let r := openPositionAfterGate { st with riskManager := rm } env params market
    (r.1, r.2.1, tr1 ++ r.2.2)

/-- `HyperliquidAgentToolkit.closePosition`: find the position, size the
reduce-only close (rounded down), price it off the top of book with the
slippage buffer, submit IOC, record the realized PnL on a full close, and
return the extracted order id.  Note that — unlike `openPosition` — the
first status is *not* checked with `isErrorStatus` before reporting
success. -/
def closePosition (st : ToolkitState) (env : Env) (params : ClosePositionParams) :
    Outcome × ToolkitState × List ToolkitEvent :=
  let normalizedCoin := jsToUpper params.coin
  match env.positions with
  | none => (.err .fetchPositionsFailed, st, [.fetchPositions])
  | some ps =>
    match ps.find? (fun p => jsToUpper p.coin == normalizedCoin) with
    | none => (.err (.noPositionFound normalizedCoin), st, [.fetchPositions])
    | some position =>
      match getAssetIndex st env normalizedCoin .perp with
      | (.error e, st2, tr2) => (.err e, st2, [ToolkitEvent.fetchPositions] ++ tr2)
      | (.ok (assetIndex, _pairName, szDecimals), st2, tr2) =>
        let closePercent := jsOr params.percent 100
        match formatSize (position.size * closePercent / 100) szDecimals .down with
        | .error e => (.err e, st2, [ToolkitEvent.fetchPositions] ++ tr2)
        | .ok closeSize =>
          let isBuy : Bool := position.side == Side.short
          match getBookTopLevels env normalizedCoin with
          | (.error e, tr3) => (.err e, st2, [ToolkitEvent.fetchPositions] ++ tr2 ++ tr3)
          | (.ok (bestBid, bestAsk), tr3) =>
            let slippage := jsOr params.slippagePercent st.defaultSlippage / 100
            let orderPrice := if isBuy then bestAsk * (1 + slippage)
              else bestBid * (1 - slippage)
            let req : OrderReq := ⟨assetIndex, isBuy, jsToPrecision orderPrice 5,
              closeSize, true, .limit .ioc, .na⟩
            let tr4 := [ToolkitEvent.fetchPositions] ++ tr2 ++ tr3 ++
              [ToolkitEvent.submitOrder req]
            let st3 :=
              if st2.riskManager.isSome && decide (closePercent = 100) then
                { st2 with riskManager :=
                    st2.riskManager.map (fun rs => recordTrade rs env.now position.unrealizedPnl) }
              else st2
            match env.orderStatuses with
            | [] => (.err .missingStatuses, st3, tr4)
            | status :: _ => (.ok (extractOrderId status), st3, tr4)

/-- The orders submitted in a trace, in order. -/
def submittedOrders (tr : List ToolkitEvent) : List OrderReq :=
  tr.filterMap (fun e => match e with | .submitOrder o => some o | _ => none)

/-- Fold a list of `(timestamp, pnl)` records through `recordTrade`. -/
def runTrades (s : RiskState) (l : List (ℤ × ℚ)) : RiskState :=
  l.foldl (fun s t => recordTrade s t.1 t.2) s

/-! ## Spec-side definitions used to state refinement claims -/

/-- Modelled from the spec: the §4.6 check sequence as an ordered list of
`(fails?, reason)` pairs — leverage, notional, open-position count, daily
loss, drawdown, stop-loss mandate, margin.  The daily-loss entry reads the
daily PnL after the lazy rollover that the check itself performs. -/
def orderedChecks (s : RiskState) (now : ℤ) (params : OpenPositionParams)
    (currentPositions : List Position) (accountBalance : ℚ) :
    List (Bool × DenyReason) :=
  let cfg := s.config
  let s1 := if truthyQ cfg.maxDailyLoss then updateDailyPnl s now else s
  [(levCheckFails cfg params,
      .leverageExceeded (params.leverage.getD 0) cfg.maxLeverage),
   (sizeCheckFails cfg params,
      .positionSizeExceeded (jsOr params.sizeUsd 0) cfg.maxPositionSizeUsd),
   (countCheckFails cfg params currentPositions,
      .tooManyPositions (cfg.maxOpenPositions.getD 0)),
   (dailyLossCheckFails cfg s1.dailyPnl,
      .dailyLossReached |s1.dailyPnl| (cfg.maxDailyLoss.getD 0)),
   (drawdownCheckFails cfg currentPositions accountBalance,
      .drawdownExceeded (drawdownOf currentPositions accountBalance)
        (cfg.maxDrawdownPercent.getD 0)),
   (stopLossCheckFails cfg params, .stopLossRequired),
   (marginCheckFails params accountBalance,
      .insufficientMargin (jsOr params.sizeUsd 0 / jsOr params.leverage 1)
        accountBalance)]

/-- Modelled from the spec: "first failing check wins" — the reason of the
first entry whose condition fails, if any. -/
def firstFailing : List (Bool × DenyReason) → Option DenyReason
  | [] => none
  | (b, r) :: rest => if b then some r else firstFailing rest

/-- Modelled from the spec (claim C9's parenthetical): the validation
predicate as the claim states it — `maxLeverage ∈ (0,50]`,
`maxPositionSizeUsd > 0`, and each *present* optional limit strictly in its
range (`maxDailyLoss > 0`, `maxDrawdownPercent ∈ (0,100]`,
`maxOpenPositions > 0`). -/
def specConfigValid (c : RiskConfig) : Prop :=
  (0 < c.maxLeverage ∧ c.maxLeverage ≤ 50) ∧
  0 < c.maxPositionSizeUsd ∧
  (match c.maxDailyLoss with | some v => 0 < v | none => True) ∧
  (match c.maxDrawdownPercent with | some v => 0 < v ∧ v ≤ 100 | none => True) ∧
  (match c.maxOpenPositions with | some v => 0 < v | none => True)

/-- The validation predicate the code actually enforces: zero-valued
optional limits are JS-falsy and skip their range checks, so a present
optional limit is only required to be non-negative (and a drawdown limit at
most 100). -/
def codeConfigValid (c : RiskConfig) : Prop :=
  (0 < c.maxLeverage ∧ c.maxLeverage ≤ 50) ∧
  0 < c.maxPositionSizeUsd ∧
  (match c.maxDailyLoss with | some v => 0 ≤ v | none => True) ∧
  (match c.maxDrawdownPercent with | some v => 0 ≤ v ∧ v ≤ 100 | none => True) ∧
  (match c.maxOpenPositions with | some v => 0 ≤ v | none => True)

/-! ## Concrete fixtures used by witnesses -/

/-- A risk manager state with `maxLeverage 10`, `maxPositionSizeUsd 1000`,
`maxDailyLoss 500`, some accumulated daily PnL, window started at `0`. -/
def wRiskS : RiskState := ⟨⟨10, 1000, some 500, none, false, none⟩, 42, 0, []⟩

/-- A benign open intent: long $100 of BTC at 2x. -/
def wParams : OpenPositionParams :=
  { coin := "BTC", side := .long, sizeUsd := some 100, leverage := some 2 }

/-- An intent violating both the leverage and the notional limits of
`wRiskS`. -/
def wParamsBad : OpenPositionParams :=
  { coin := "BTC", side := .long, sizeUsd := some 5000, leverage := some 30 }

/-- A gateway environment: one open BTC long, a liquid book at `(100, 101)`,
and an exchange that answers the order submission with an `{error}`
status. -/
def wEnv : Env :=
  { now := 0
    positions := some [⟨"BTC", .long, 1, 5⟩]
    balance := some ⟨1000⟩
    perpAssets := fun c => if c == "BTC" then some ⟨0, 3⟩ else none
    spotAssets := fun _ => none
    book := fun _ => some (100, 101)
    orderStatuses := [.errS "Insufficient margin"]
    mids := fun _ => 50 }

/-- A market order intent: long 1 BTC. -/
def wOpenParams : OpenPositionParams := { coin := "BTC", side := .long, sizeCoin := some 1 }

/-- A full close of the BTC position. -/
def wCloseParams : ClosePositionParams := { coin := "BTC" }

/-- A toolkit instance without a risk manager, cold caches. -/
def wToolkit : ToolkitState := { riskManager := none }

/-- A toolkit instance with the `wRiskS` risk manager. -/
def wRiskToolkit : ToolkitState := { riskManager := some wRiskS }

/-- A spot-market buy intent. -/
def wSpotParams : OpenPositionParams :=
  { coin := "PURR", side := .buy, sizeCoin := some 1, market := some .spot }

/-- `wEnv` with a book whose buy-side slippage price rounds up at the fifth
significant figure: best ask `99.016`, raw buy price `99.016 * 1.01 = 100.00616`. -/
def wEnvRound : Env :=
  { wEnv with book := fun _ => some (99, 99016 / 1000) }

/-- A limit order intent whose limit price `1.234567` does not survive
`toFixed(5)`. -/
def wLimitParams : OpenPositionParams :=
  { coin := "BTC", side := .long, sizeCoin := some 1, orderType := some .limit,
    limitPrice := some (1234567 / 1000000) }

/-- A limit order intent whose limit price `3.5` is exactly representable in
five decimals. -/
def wLimit2Params : OpenPositionParams :=
  { coin := "BTC", side := .long, sizeCoin := some 1, orderType := some .limit,
    limitPrice := some (7 / 2) }

/-! # Theorems -/

@[simp] theorem truthyQ_none : truthyQ none = false := rfl

@[simp] theorem truthyQ_some (v : ℚ) : truthyQ (some v) = (v != 0) := rfl

@[simp] theorem jsOr_none (b : ℚ) : jsOr none b = b := rfl

theorem jsOr_some (v b : ℚ) : jsOr (some v) b = if v = 0 then b else v := rfl

/-! ## Evaluation lemmas for the decimal-exponent helpers -/

theorem log10Aux_bounds (fuel : ℕ) :
    ∀ n, 1 ≤ n → n ≤ fuel →
      10 ^ log10Aux fuel n ≤ n ∧ n < 10 ^ (log10Aux fuel n + 1) := by
  induction fuel with
  | zero => intro n h1 h2; omega
  | succ fuel ih =>
    intro n h1 h2
    by_cases h : n < 10
    · simpa [log10Aux, h] using And.intro h1 h
    · push_neg at h
      have hcond : ¬ n < 10 := by omega
      have hdiv1 : 1 ≤ n / 10 := (Nat.one_le_div_iff (by norm_num)).mpr h
      have hdivfuel : n / 10 ≤ fuel := by
        have : n / 10 < n := Nat.div_lt_self (by omega) (by norm_num)
        omega
      obtain ⟨hlo, hhi⟩ := ih (n / 10) hdiv1 hdivfuel
      have hmod := Nat.div_add_mod n 10
      have hmodlt : n % 10 < 10 := Nat.mod_lt n (by norm_num)
      simp only [log10Aux, if_neg hcond]
      constructor
      · calc 10 ^ (log10Aux fuel (n / 10) + 1)
            = 10 ^ log10Aux fuel (n / 10) * 10 := by ring
          _ ≤ (n / 10) * 10 := Nat.mul_le_mul_right _ hlo
          _ ≤ n := by omega
      · calc n < (n / 10 + 1) * 10 := by omega
          _ ≤ 10 ^ (log10Aux fuel (n / 10) + 1) * 10 := Nat.mul_le_mul_right _ (by omega)
          _ = 10 ^ (log10Aux fuel (n / 10) + 1 + 1) := by ring

theorem natLog10_bounds {n : ℕ} (h : 1 ≤ n) :
    10 ^ natLog10 n ≤ n ∧ n < 10 ^ (natLog10 n + 1) :=
  log10Aux_bounds n n h le_rfl

theorem exp10_unique {x : ℚ} {e f : ℤ} (he1 : (10 : ℚ) ^ e ≤ x) (he2 : x < 10 ^ (e + 1))
    (hf1 : (10 : ℚ) ^ f ≤ x) (hf2 : x < 10 ^ (f + 1)) : e = f := by
  by_contra hne
  rcases lt_or_gt_of_ne hne with h | h
  · have : (10 : ℚ) ^ (e + 1) ≤ 10 ^ f := zpow_le_zpow_right₀ (by norm_num) (by omega)
    linarith
  · have : (10 : ℚ) ^ (f + 1) ≤ 10 ^ e := zpow_le_zpow_right₀ (by norm_num) (by omega)
    linarith

theorem qExp10_unique {x : ℚ} {e : ℤ} (h1 : 1 ≤ x) (hle : (10 : ℚ) ^ e ≤ x)
    (hlt : x < 10 ^ (e + 1)) : qExp10 x = e := by
  have hfl : (1 : ℤ) ≤ ⌊x⌋ := by
    rw [Int.le_floor]; exact_mod_cast h1
  have hmn : ((⌊x⌋.toNat : ℤ) : ℤ) = ⌊x⌋ := Int.toNat_of_nonneg (by omega)
  have hm1 : 1 ≤ ⌊x⌋.toNat := by omega
  obtain ⟨hlo, hhi⟩ := natLog10_bounds hm1
  rw [qExp10, if_pos h1]
  refine exp10_unique ?_ ?_ hle hlt
  · calc (10 : ℚ) ^ (natLog10 ⌊x⌋.toNat : ℤ)
        = ((10 ^ natLog10 ⌊x⌋.toNat : ℕ) : ℚ) := by
          rw [zpow_natCast]; push_cast; ring
      _ ≤ ((⌊x⌋.toNat : ℕ) : ℚ) := by exact_mod_cast hlo
      _ ≤ x := by
          have : ((⌊x⌋ : ℤ) : ℚ) ≤ x := Int.floor_le x
          rw [show ((⌊x⌋.toNat : ℕ) : ℚ) = ((⌊x⌋ : ℤ) : ℚ) by exact_mod_cast hmn]
          exact this
  · have hup : x < ((⌊x⌋ : ℤ) : ℚ) + 1 := Int.lt_floor_add_one x
    have hstep : (⌊x⌋.toNat : ℕ) + 1 ≤ 10 ^ (natLog10 ⌊x⌋.toNat + 1) := by omega
    calc x < ((⌊x⌋ : ℤ) : ℚ) + 1 := hup
      _ = ((⌊x⌋.toNat + 1 : ℕ) : ℚ) := by
          rw [show ((⌊x⌋.toNat + 1 : ℕ) : ℚ) = ((⌊x⌋.toNat : ℕ) : ℚ) + 1 by push_cast; ring,
            show ((⌊x⌋.toNat : ℕ) : ℚ) = ((⌊x⌋ : ℤ) : ℚ) by exact_mod_cast hmn]
      _ ≤ ((10 ^ (natLog10 ⌊x⌋.toNat + 1) : ℕ) : ℚ) := by exact_mod_cast hstep
      _ = (10 : ℚ) ^ ((natLog10 ⌊x⌋.toNat : ℤ) + 1) := by
          rw [show ((natLog10 ⌊x⌋.toNat : ℤ) + 1) = ((natLog10 ⌊x⌋.toNat + 1 : ℕ) : ℤ) by push_cast; ring,
            zpow_natCast]
          push_cast; ring

/-- Closed form of `jsToPrecision` on inputs `≥ 1`, given the decimal
exponent: usable with `norm_num` to evaluate concrete instances. -/
theorem jsToPrecision_eval {x : ℚ} (p : ℕ) (e : ℤ) (h1 : 1 ≤ x)
    (hle : (10 : ℚ) ^ e ≤ x) (hlt : x < 10 ^ (e + 1)) :
    jsToPrecision x p = (⌊x / 10 ^ (e - p + 1) + 1 / 2⌋ : ℚ) * 10 ^ (e - p + 1) := by
  have hx0 : (0 : ℚ) < x := lt_of_lt_of_le one_pos h1
  rw [jsToPrecision, if_neg (ne_of_gt hx0)]
  simp only [abs_of_pos hx0, qExp10_unique h1 hle hlt, if_neg (not_lt.mpr (le_of_lt hx0))]
  ring

/-- Closed form of `truncToSigFigs` on inputs `≥ 1`, given the decimal
exponent. -/
theorem truncToSigFigs_eval {x : ℚ} (p : ℕ) (e : ℤ) (h1 : 1 ≤ x)
    (hle : (10 : ℚ) ^ e ≤ x) (hlt : x < 10 ^ (e + 1)) :
    truncToSigFigs x p = (⌊x / 10 ^ (e - p + 1)⌋ : ℚ) * 10 ^ (e - p + 1) := by
  have hx0 : (0 : ℚ) < x := lt_of_lt_of_le one_pos h1
  rw [truncToSigFigs, if_neg (ne_of_gt hx0)]
  simp only [abs_of_pos hx0, qExp10_unique h1 hle hlt, if_neg (not_lt.mpr (le_of_lt hx0))]
  ring

/-- Rewrite a ceiling as a floor, so that `norm_num` (which evaluates
`Int.floor` of rational literals) can evaluate concrete ceilings. -/
theorem intCeil_eq_neg_floor_neg (a : ℚ) : ⌈a⌉ = -⌊-a⌋ := by
  rw [Int.floor_neg]; ring

/-- `toFixed(digits)` is exact on rationals representable with `digits`
decimal places. -/
theorem jsToFixed_eq_self {x : ℚ} {digits : ℕ} (m : ℤ)
    (hm : x * 10 ^ digits = (m : ℚ)) : jsToFixed x digits = x := by
  rw [jsToFixed, hm]
  have : ⌊(m : ℚ) + 1 / 2⌋ = m := by
    rw [Int.floor_eq_iff]
    constructor <;> [push_cast; push_cast] <;> linarith
  rw [this]
  have h10 : ((10 : ℚ) ^ digits) ≠ 0 := by positivity
  field_simp at hm ⊢
  linarith [hm]

/-! ## C6 — OrderSizer rounding bounds -/

/-- C6: the claimed rounding bounds fail in the source — a code bug in the
trailing-zero strip.  For an asset with `szDecimals = 0`, rounding `9.5` up
gives `10`, `toFixed(0)` renders the bare integer `'10'`, and the
`replace(/\.?0+$/, '')` — whose optional dot lets the pattern match a bare
integer's trailing zeros — strips it to `'1'`: the returned quantity `1` is
*below* the exact `9.5` (refuting the round-up `≥` bound) and off by `8.5`,
far more than one unit of `10^0` (refuting the one-unit bound).  For every
positive size and `decimals ≠ 0`, where the strip removes only fractional
zeros and preserves the value, the claimed bounds do hold: round-up
succeeds with a quantity in `[size, size + 10^-decimals)`, and round-down,
whenever it returns, gives a quantity in `(size - 10^-decimals, size]`. -/
theorem formatSize_bounds (size : ℚ) (d : ℕ) (h : 0 < size) (hd : d ≠ 0) :
    (formatSize (19 / 2) 0 .up = .ok 1 ∧ ¬((19 : ℚ) / 2 ≤ 1) ∧
      1 / 10 ^ (0 : ℕ) ≤ (19 : ℚ) / 2 - 1) ∧
    (∃ q, formatSize size d .up = .ok q ∧ size ≤ q ∧ q - size < 1 / 10 ^ d) ∧
    (∀ q, formatSize size d .down = .ok q → q ≤ size ∧ size - q < 1 / 10 ^ d) := by
  have hf : (0 : ℚ) < 10 ^ d := by positivity
  refine ⟨⟨?_, by norm_num, by norm_num⟩, ?_, ?_⟩
  · have hc : ⌈(19 : ℚ) / 2 * 10 ^ (0 : ℕ)⌉ = 10 := by
      rw [intCeil_eq_neg_floor_neg]
      norm_num
    have hs : stripZeros 10 = 1 := by decide
    simp only [formatSize, hc]
    norm_num
    rw [show ((10 : ℤ).toNat) = 10 from rfl, hs]
  · refine ⟨(⌈size * 10 ^ d⌉ : ℚ) / 10 ^ d, ?_, ?_, ?_⟩
    · have hpos : (0 : ℚ) < (⌈size * 10 ^ d⌉ : ℚ) / 10 ^ d := by
        apply div_pos _ hf
        exact_mod_cast Int.ceil_pos.mpr (mul_pos h hf)
      simp only [formatSize, if_neg (not_le.mpr h), if_neg (not_le.mpr hpos), if_neg hd]
    · rw [le_div_iff₀ hf]
      exact Int.le_ceil _
    · have hceil := Int.ceil_lt_add_one (size * 10 ^ d)
      rw [sub_lt_iff_lt_add]
      have hsum : 1 / 10 ^ d + size = (1 + size * 10 ^ d) / 10 ^ d := by
        field_simp
      rw [hsum, div_lt_div_iff₀ hf hf]
      nlinarith [hceil]
  · intro q hq
    simp only [formatSize, if_neg (not_le.mpr h)] at hq
    by_cases hc : ((⌊size * 10 ^ d⌋ : ℚ) / 10 ^ d) ≤ 0
    · rw [if_pos hc] at hq
      exact absurd hq (by simp)
    · rw [if_neg hc, if_neg hd] at hq
      obtain rfl : (⌊size * 10 ^ d⌋ : ℚ) / 10 ^ d = q := by simpa using hq
      constructor
      · rw [div_le_iff₀ hf]
        exact Int.floor_le _
      · have hfloor := Int.lt_floor_add_one (size * 10 ^ d)
        rw [sub_lt_iff_lt_add]
        have hsum : 1 / 10 ^ d + (⌊size * 10 ^ d⌋ : ℚ) / 10 ^ d =
            (1 + (⌊size * 10 ^ d⌋ : ℚ)) / 10 ^ d := by ring
        rw [hsum, lt_div_iff₀ hf]
        linarith

/-- Witness for C6: the concrete strip bug at `size = 9.5`, `decimals = 0`,
and the `decimals ≠ 0` bounds at `size = 1/3`, `decimals = 2`. -/
theorem formatSize_bounds_witness :
    (formatSize (19 / 2) 0 .up = .ok 1 ∧ ¬((19 : ℚ) / 2 ≤ 1) ∧
      1 / 10 ^ (0 : ℕ) ≤ (19 : ℚ) / 2 - 1) ∧
    (∃ q, formatSize (1 / 3) 2 .up = .ok q ∧ (1 : ℚ) / 3 ≤ q ∧ q - 1 / 3 < 1 / 10 ^ 2) ∧
    (∀ q, formatSize (1 / 3) 2 .down = .ok q → q ≤ 1 / 3 ∧ (1 : ℚ) / 3 - q < 1 / 10 ^ 2) :=
  formatSize_bounds (1 / 3) 2 (by norm_num) (by norm_num)

/-! ## C7 — bounded trade history -/

theorem updateDailyPnl_tradesLog (s : RiskState) (now : ℤ) :
    (updateDailyPnl s now).tradesLog = s.tradesLog := by
  rw [updateDailyPnl]; split <;> rfl

theorem updateDailyPnl_config (s : RiskState) (now : ℤ) :
    (updateDailyPnl s now).config = s.config := by
  rw [updateDailyPnl]; split <;> rfl

theorem recordTrade_tradesLog (s : RiskState) (now : ℤ) (pnl : ℚ) :
    (recordTrade s now pnl).tradesLog =
      (if (s.tradesLog ++ [(⟨now, pnl⟩ : TradeEntry)]).length > 1000 then
        (s.tradesLog ++ [(⟨now, pnl⟩ : TradeEntry)]).drop
          ((s.tradesLog ++ [(⟨now, pnl⟩ : TradeEntry)]).length - 1000)
      else s.tradesLog ++ [(⟨now, pnl⟩ : TradeEntry)]) := by
  simp only [recordTrade, updateDailyPnl_tradesLog]

theorem runTrades_log_append (l : List (ℤ × ℚ)) :
    ∀ s : RiskState, s.tradesLog.length + l.length ≤ 1000 →
      (runTrades s l).tradesLog = s.tradesLog ++ l.map (fun x => ⟨x.1, x.2⟩) := by
  induction l with
  | nil => intro s _; simp [runTrades]
  | cons x rest ih =>
    intro s hlen
    have hstep : (recordTrade s x.1 x.2).tradesLog = s.tradesLog ++ [⟨x.1, x.2⟩] := by
      rw [recordTrade_tradesLog, if_neg]
      simp only [List.length_append, List.length_cons] at hlen ⊢
      simp only [List.length_nil]
      omega
    have : runTrades s (x :: rest) = runTrades (recordTrade s x.1 x.2) rest := rfl
    rw [this, ih _ (by rw [hstep]; simp at hlen ⊢; omega), hstep]
    simp

/-- C7: after every `recordTrade` the history holds at most 1000 entries;
from a history of exactly 1000 entries one further `recordTrade` evicts
exactly the oldest entry and appends the new one, preserving the order of
the rest; and after 1001 `recordTrade` calls from an empty history the
first-recorded entry is gone. -/
theorem recordTrade_bounded_eviction (s s0 : RiskState) (now : ℤ) (pnl : ℚ)
    (l : List (ℤ × ℚ)) (h1000 : s.tradesLog.length = 1000)
    (hempty : s0.tradesLog = []) (hlen : l.length = 1001) :
    (∀ (t : RiskState) (n : ℤ) (p : ℚ), (recordTrade t n p).tradesLog.length ≤ 1000) ∧
    (recordTrade s now pnl).tradesLog = s.tradesLog.drop 1 ++ [⟨now, pnl⟩] ∧
    (runTrades s0 l).tradesLog = (l.map (fun x => (⟨x.1, x.2⟩ : TradeEntry))).drop 1 := by
  have evict : ∀ (t : RiskState) (n : ℤ) (p : ℚ), t.tradesLog.length = 1000 →
      (recordTrade t n p).tradesLog = t.tradesLog.drop 1 ++ [⟨n, p⟩] := by
    intro t n p ht
    rw [recordTrade_tradesLog, if_pos (by simp [ht])]
    have : (t.tradesLog ++ [(⟨n, p⟩ : TradeEntry)]).length - 1000 = 1 := by simp [ht]
    rw [this, List.drop_append_of_le_length (by omega)]
  refine ⟨?_, evict s now pnl h1000, ?_⟩
  · intro t n p
    rw [recordTrade_tradesLog]
    split
    · simp only [List.length_drop]; omega
    · simp only [List.length_append, List.length_cons, List.length_nil] at *; omega
  · have hne : l ≠ [] := by intro h; rw [h] at hlen; simp at hlen
    obtain ⟨l1, x, rfl⟩ : ∃ l1 x, l = l1 ++ [x] := ⟨l.dropLast, l.getLast hne, by
      rw [List.dropLast_append_getLast hne]⟩
    have hl1 : l1.length = 1000 := by simp at hlen; omega
    have hrun : runTrades s0 (l1 ++ [x]) = recordTrade (runTrades s0 l1) x.1 x.2 := by
      simp [runTrades, List.foldl_append]
    have hfirst : (runTrades s0 l1).tradesLog = l1.map (fun x => ⟨x.1, x.2⟩) := by
      rw [runTrades_log_append l1 s0 (by rw [hempty]; simp [hl1]), hempty]; simp
    rw [hrun, evict _ x.1 x.2 (by rw [hfirst]; simp [hl1]), hfirst]
    rw [List.map_append, List.drop_append_of_le_length (by simp [hl1])]
    simp

/-- Witness for C7: a 1000-entry history state and a 1001-record run. -/
theorem recordTrade_bounded_eviction_witness :
    (∀ (t : RiskState) (n : ℤ) (p : ℚ), (recordTrade t n p).tradesLog.length ≤ 1000) ∧
    (recordTrade ⟨⟨10, 100, none, none, false, none⟩, 0, 0,
        List.replicate 1000 ⟨0, 2⟩⟩ 5 7).tradesLog =
      (List.replicate 1000 (⟨0, 2⟩ : TradeEntry)).drop 1 ++ [⟨5, 7⟩] ∧
    (runTrades ⟨⟨10, 100, none, none, false, none⟩, 0, 0, []⟩
        (List.replicate 1001 (3, 4))).tradesLog =
      ((List.replicate 1001 ((3 : ℤ), (4 : ℚ))).map
        (fun x => (⟨x.1, x.2⟩ : TradeEntry))).drop 1 :=
  recordTrade_bounded_eviction _ _ 5 7 _
    (by rw [show (RiskState.mk ⟨10, 100, none, none, false, none⟩ 0 0
        (List.replicate 1000 ⟨0, 2⟩)).tradesLog = List.replicate 1000 ⟨0, 2⟩ from rfl,
      List.length_replicate])
    rfl (by rw [List.length_replicate])

/-! ## C8 — lazy 24h rollover of the daily PnL window -/

theorem recordTrade_dailyPnl (s : RiskState) (now : ℤ) (pnl : ℚ) :
    (recordTrade s now pnl).dailyPnl = (updateDailyPnl s now).dailyPnl + pnl := by
  simp only [recordTrade]

theorem recordTrade_resetTime (s : RiskState) (now : ℤ) (pnl : ℚ) :
    (recordTrade s now pnl).dailyPnlResetTime =
      (updateDailyPnl s now).dailyPnlResetTime := by
  simp only [recordTrade]

theorem recordTrade_config (s : RiskState) (now : ℤ) (pnl : ℚ) :
    (recordTrade s now pnl).config = s.config := by
  simp only [recordTrade, updateDailyPnl_config]

/-- Within the window (every trade less than 24h after the window start),
`recordTrade` accumulates and never rolls the window over. -/
theorem runTrades_within (l : List (ℤ × ℚ)) :
    ∀ s : RiskState, (∀ x ∈ l, x.1 - s.dailyPnlResetTime < dayMs) →
      (runTrades s l).dailyPnl = s.dailyPnl + (l.map Prod.snd).sum ∧
      (runTrades s l).dailyPnlResetTime = s.dailyPnlResetTime := by
  induction l with
  | nil => intro s _; simp [runTrades]
  | cons x rest ih =>
    intro s hin
    have hx : x.1 - s.dailyPnlResetTime < dayMs := hin x (by simp)
    have hnoop : updateDailyPnl s x.1 = s := by
      rw [updateDailyPnl, if_neg (by omega)]
    have hrun : runTrades s (x :: rest) = runTrades (recordTrade s x.1 x.2) rest := rfl
    have hreset := recordTrade_resetTime s x.1 x.2
    rw [hnoop] at hreset
    obtain ⟨ha, hb⟩ := ih (recordTrade s x.1 x.2) (by
      intro y hy
      rw [hreset]
      exact hin y (by simp [hy]))
    rw [hrun, ha, hb, hreset, recordTrade_dailyPnl, hnoop]
    simp only [List.map_cons, List.sum_cons]
    exact ⟨by ring, trivial⟩

/-- The state component of `checkOpenPosition` when the leverage, notional
and position-count checks pass: exactly the lazy rollover of the daily-loss
branch (a no-op when no daily-loss limit is configured). -/
theorem checkOpenPosition_state (s : RiskState) (now : ℤ)
    (params : OpenPositionParams) (pos : List Position) (bal : ℚ)
    (h1 : levCheckFails s.config params = false)
    (h2 : sizeCheckFails s.config params = false)
    (h3 : countCheckFails s.config params pos = false) :
    (checkOpenPosition s now params pos bal).2 =
      (if truthyQ s.config.maxDailyLoss then updateDailyPnl s now else s) := by
  rw [checkOpenPosition, if_neg (by simp [h1]), if_neg (by simp [h2]),
    if_neg (by simp [h3])]
  by_cases h4 : dailyLossCheckFails s.config
      (if truthyQ s.config.maxDailyLoss then updateDailyPnl s now else s).dailyPnl
  · show ((if dailyLossCheckFails s.config
        (if truthyQ s.config.maxDailyLoss then updateDailyPnl s now else s).dailyPnl
        then _ else _ : RiskCheckResult × RiskState)).2 = _
    rw [if_pos h4]
  · show ((if dailyLossCheckFails s.config
        (if truthyQ s.config.maxDailyLoss then updateDailyPnl s now else s).dailyPnl
        then _ else _ : RiskCheckResult × RiskState)).2 = _
    rw [if_neg h4]
    by_cases h5 : drawdownCheckFails s.config pos bal
    · rw [if_pos h5]
    · rw [if_neg h5]
      by_cases h6 : stopLossCheckFails s.config params
      · rw [if_pos h6]
      · rw [if_neg h6]
        by_cases h7 : marginCheckFails params bal
        · rw [if_pos h7]
        · rw [if_neg h7]

/-- C8: the first read or write at least 24h after the window start —
`getDailyPnl`, `getStats`, `recordTrade`, or a `checkOpenPosition` that
consults the daily-loss limit — resets the cumulative daily PnL to zero
(`recordTrade` then adds its own trade) and restarts the window at the
call's time; within 24h of the window start, `getDailyPnl` returns the sum
of all PnL values recorded since the window started. -/
theorem dailyPnl_window (s : RiskState) (now : ℤ) (pnl : ℚ)
    (params : OpenPositionParams) (pos : List Position) (bal : ℚ)
    (w t : ℤ) (cfg : RiskConfig) (log : List TradeEntry) (l : List (ℤ × ℚ))
    (helapsed : now - s.dailyPnlResetTime ≥ dayMs)
    (h1 : levCheckFails s.config params = false)
    (h2 : sizeCheckFails s.config params = false)
    (h3 : countCheckFails s.config params pos = false)
    (h4 : truthyQ s.config.maxDailyLoss = true)
    (hwithin : ∀ x ∈ l, x.1 - w < dayMs) (ht : t - w < dayMs) :
    ((getDailyPnl s now).1 = 0 ∧ (getDailyPnl s now).2.dailyPnlResetTime = now) ∧
    ((recordTrade s now pnl).dailyPnl = pnl ∧
      (recordTrade s now pnl).dailyPnlResetTime = now) ∧
    ((getStats s now).1.dailyPnl = 0 ∧ (getStats s now).2.dailyPnlResetTime = now) ∧
    ((checkOpenPosition s now params pos bal).2.dailyPnl = 0 ∧
      (checkOpenPosition s now params pos bal).2.dailyPnlResetTime = now) ∧
    (getDailyPnl (runTrades ⟨cfg, 0, w, log⟩ l) t).1 = (l.map Prod.snd).sum := by
  have hreset : updateDailyPnl s now =
      { s with dailyPnl := 0, dailyPnlResetTime := now } := by
    rw [updateDailyPnl, if_pos helapsed]
  refine ⟨⟨?_, ?_⟩, ⟨?_, ?_⟩, ⟨?_, ?_⟩, ⟨?_, ?_⟩, ?_⟩
  · simp [getDailyPnl, hreset]
  · simp [getDailyPnl, hreset]
  · rw [recordTrade_dailyPnl, hreset]; simp
  · rw [recordTrade_resetTime, hreset]
  · simp [getStats, hreset]
  · simp [getStats, hreset]
  · rw [checkOpenPosition_state s now params pos bal h1 h2 h3, if_pos h4, hreset]
  · rw [checkOpenPosition_state s now params pos bal h1 h2 h3, if_pos h4, hreset]
  · obtain ⟨ha, hb⟩ := runTrades_within l ⟨cfg, 0, w, log⟩ (by simpa using hwithin)
    have hnoop : updateDailyPnl (runTrades ⟨cfg, 0, w, log⟩ l) t =
        runTrades ⟨cfg, 0, w, log⟩ l := by
      rw [updateDailyPnl, if_neg (by rw [hb]; simp only; omega)]
    rw [getDailyPnl, hnoop, ha]
    simp

/-- Witness for C8: a reset 25h after the window start, and accumulation of
two trades inside the window. -/
theorem dailyPnl_window_witness :
    (((getDailyPnl wRiskS (25 * 3600000)).1 = 0 ∧
      (getDailyPnl wRiskS (25 * 3600000)).2.dailyPnlResetTime = 25 * 3600000) ∧
    ((recordTrade wRiskS (25 * 3600000) 7).dailyPnl = 7 ∧
      (recordTrade wRiskS (25 * 3600000) 7).dailyPnlResetTime = 25 * 3600000) ∧
    ((getStats wRiskS (25 * 3600000)).1.dailyPnl = 0 ∧
      (getStats wRiskS (25 * 3600000)).2.dailyPnlResetTime = 25 * 3600000) ∧
    ((checkOpenPosition wRiskS (25 * 3600000) wParams [] 1000).2.dailyPnl = 0 ∧
      (checkOpenPosition wRiskS (25 * 3600000) wParams [] 1000).2.dailyPnlResetTime =
        25 * 3600000) ∧
    (getDailyPnl (runTrades ⟨⟨10, 1000, some 500, none, false, none⟩, 0, 0, []⟩
        [(1000, 3), (2000, -5)]) 3000).1 = ([(3 : ℚ), -5]).sum) :=
  dailyPnl_window wRiskS (25 * 3600000) 7 wParams [] 1000 0 3000
    ⟨10, 1000, some 500, none, false, none⟩ [] [(1000, 3), (2000, -5)]
    (by norm_num [wRiskS, dayMs])
    (by norm_num [wRiskS, wParams, levCheckFails, truthyQ])
    (by norm_num [wRiskS, wParams, sizeCheckFails, jsOr])
    (by norm_num [wRiskS, wParams, countCheckFails, truthyQ])
    (by norm_num [wRiskS, truthyQ])
    (by intro x hx; fin_cases hx <;> norm_num [dayMs]) (by norm_num [dayMs])

/-! ## C9 — reconfiguration validates the merged config atomically -/

/-- C9 counterexample: reconfiguring with `maxDailyLoss: 0` yields a merged
config that violates the claim's validation predicate (`maxDailyLoss > 0`
when present), yet `updateConfig` does not throw — it stores the merged
config (the zero value is JS-falsy and skips its range check). -/
theorem updateConfig_zero_dailyLoss_counterexample :
    ¬ specConfigValid (mergeConfig wRiskS.config ⟨none, none, some (some 0), none, none, none⟩) ∧
    updateConfig wRiskS ⟨none, none, some (some 0), none, none, none⟩ =
      .ok { wRiskS with config := ⟨10, 1000, some 0, none, false, none⟩ } ∧
    (updateConfigRun wRiskS ⟨none, none, some (some 0), none, none, none⟩).config =
      ⟨10, 1000, some 0, none, false, none⟩ := by
  refine ⟨?_, ?_, ?_⟩
  · intro h
    have := h.2.2.1
    simp [mergeConfig, wRiskS] at this
  · rw [updateConfig]
    rw [show mergeConfig wRiskS.config ⟨none, none, some (some 0), none, none, none⟩ =
      ⟨10, 1000, some 0, none, false, none⟩ from rfl]
    rw [validateConfig, if_neg (by norm_num), if_neg (by norm_num),
      if_neg (by simp [truthyQ]), if_neg (by simp [truthyQ]), if_neg (by simp [truthyQ])]
  · rw [updateConfigRun, updateConfig]
    rw [show mergeConfig wRiskS.config ⟨none, none, some (some 0), none, none, none⟩ =
      ⟨10, 1000, some 0, none, false, none⟩ from rfl]
    rw [validateConfig, if_neg (by norm_num), if_neg (by norm_num),
      if_neg (by simp [truthyQ]), if_neg (by simp [truthyQ]), if_neg (by simp [truthyQ])]

theorem optNonneg_iff (o : Option ℚ) :
    (¬ (truthyQ o && decide (o.getD 0 ≤ 0)) = true) ↔
      (match o with | some v => 0 ≤ v | none => True) := by
  rcases o with _ | v
  · simp [truthyQ]
  · simp only [truthyQ_some, Option.getD_some, Bool.and_eq_true, bne_iff_ne,
      decide_eq_true_eq, not_and]
    constructor
    · intro h
      rcases lt_or_le v 0 with hv | hv
      · exact absurd (le_of_lt hv) (h (ne_of_lt hv))
      · exact hv
    · intro h hne hle
      exact hne (le_antisymm hle h)

theorem optRange_iff (o : Option ℚ) :
    (¬ (truthyQ o && decide (o.getD 0 ≤ 0 ∨ o.getD 0 > 100)) = true) ↔
      (match o with | some v => 0 ≤ v ∧ v ≤ 100 | none => True) := by
  rcases o with _ | v
  · simp [truthyQ]
  · simp only [truthyQ_some, Option.getD_some, Bool.and_eq_true, bne_iff_ne,
      decide_eq_true_eq, not_and]
    constructor
    · intro h
      rcases lt_or_le v 0 with hv | hv
      · exact absurd (Or.inl (le_of_lt hv)) (h (ne_of_lt hv))
      · rcases le_or_lt v 100 with hv2 | hv2
        · exact ⟨hv, hv2⟩
        · exact absurd (Or.inr hv2) (h (by intro h0; rw [h0] at hv2; linarith))
    · intro h hne hor
      rcases hor with hle | hgt
      · exact hne (le_antisymm hle h.1)
      · linarith [h.2]

/-- `validateConfig` succeeds exactly on `codeConfigValid` configs (and then
returns its input unchanged). -/
theorem validateConfig_ok_iff (c : RiskConfig) :
    validateConfig c = .ok c ↔ codeConfigValid c := by
  have herr : ∀ {e : ConfigErr}, (Except.error e : Except ConfigErr RiskConfig) ≠ .ok c := by
    intro e h; cases h
  constructor
  · intro h
    have hA : ¬ (c.maxLeverage ≤ 0 ∨ c.maxLeverage > 50) := by
      intro hc; rw [validateConfig, if_pos hc] at h; exact herr h
    have hB : ¬ c.maxPositionSizeUsd ≤ 0 := by
      intro hc; rw [validateConfig, if_neg hA, if_pos hc] at h; exact herr h
    have hC : ¬ (truthyQ c.maxDailyLoss && decide (c.maxDailyLoss.getD 0 ≤ 0)) = true := by
      intro hc; rw [validateConfig, if_neg hA, if_neg hB, if_pos hc] at h; exact herr h
    have hD : ¬ (truthyQ c.maxDrawdownPercent &&
        decide (c.maxDrawdownPercent.getD 0 ≤ 0 ∨ c.maxDrawdownPercent.getD 0 > 100)) = true := by
      intro hc
      rw [validateConfig, if_neg hA, if_neg hB, if_neg hC, if_pos hc] at h; exact herr h
    have hE : ¬ (truthyQ c.maxOpenPositions && decide (c.maxOpenPositions.getD 0 ≤ 0)) = true := by
      intro hc
      rw [validateConfig, if_neg hA, if_neg hB, if_neg hC, if_neg hD, if_pos hc] at h
      exact herr h
    push_neg at hA hB
    exact ⟨⟨hA.1, hA.2⟩, hB, (optNonneg_iff _).mp hC, (optRange_iff _).mp hD,
      (optNonneg_iff _).mp hE⟩
  · intro h
    obtain ⟨⟨ha1, ha2⟩, hb, hc, hd, he⟩ := h
    rw [validateConfig, if_neg (by push_neg; exact ⟨ha1, ha2⟩),
      if_neg (not_le.mpr hb), if_neg ((optNonneg_iff _).mpr hc),
      if_neg ((optRange_iff _).mpr hd), if_neg ((optNonneg_iff _).mpr he)]

/-- C9 (amended): `updateConfig` validates the merged config with
zero-valued optional limits treated as unset — accepted exactly when
`maxLeverage ∈ (0,50]`, `maxPositionSizeUsd > 0`, and each present optional
limit is non-negative (drawdown also `≤ 100`).  When validation throws, the
stored config is unchanged; when it passes, the merged config replaces the
prior one. -/
theorem updateConfig_atomic (s : RiskState) (p : PartialRiskConfig) :
    (validateConfig (mergeConfig s.config p) = .ok (mergeConfig s.config p) ↔
      codeConfigValid (mergeConfig s.config p)) ∧
    (∀ e, validateConfig (mergeConfig s.config p) = .error e →
      updateConfig s p = .error e ∧ updateConfigRun s p = s) ∧
    (validateConfig (mergeConfig s.config p) = .ok (mergeConfig s.config p) →
      updateConfig s p = .ok { s with config := mergeConfig s.config p } ∧
      updateConfigRun s p = { s with config := mergeConfig s.config p }) := by
  refine ⟨validateConfig_ok_iff _, ?_, ?_⟩
  · intro e he
    constructor
    · rw [updateConfig, he]
    · rw [updateConfigRun, updateConfig, he]
  · intro h
    constructor
    · rw [updateConfig, h]
    · rw [updateConfigRun, updateConfig, h]

/-- Witness for C9 (amended): an invalid reconfiguration (`maxLeverage -5`)
is rejected and keeps the prior state; a valid one (`maxLeverage 20`)
replaces the config. -/
theorem updateConfig_atomic_witness :
    (updateConfig wRiskS ⟨some (-5), none, none, none, none, none⟩ = .error .badLeverage ∧
      updateConfigRun wRiskS ⟨some (-5), none, none, none, none, none⟩ = wRiskS) ∧
    (updateConfig wRiskS ⟨some 20, none, none, none, none, none⟩ =
        .ok { wRiskS with config := ⟨20, 1000, some 500, none, false, none⟩ } ∧
      updateConfigRun wRiskS ⟨some 20, none, none, none, none, none⟩ =
        { wRiskS with config := ⟨20, 1000, some 500, none, false, none⟩ }) := by
  constructor
  · exact (updateConfig_atomic wRiskS ⟨some (-5), none, none, none, none, none⟩).2.1
      .badLeverage
      (by rw [show mergeConfig wRiskS.config ⟨some (-5), none, none, none, none, none⟩ =
          ⟨-5, 1000, some 500, none, false, none⟩ from rfl]
          rw [validateConfig, if_pos (by norm_num)])
  · have h := (updateConfig_atomic wRiskS ⟨some 20, none, none, none, none, none⟩).2.2
      (by rw [show mergeConfig wRiskS.config ⟨some 20, none, none, none, none, none⟩ =
          ⟨20, 1000, some 500, none, false, none⟩ from rfl]
          rw [validateConfig, if_neg (by norm_num), if_neg (by norm_num),
            if_neg (by norm_num [truthyQ]), if_neg (by norm_num [truthyQ]),
            if_neg (by norm_num [truthyQ])])
    rw [show mergeConfig wRiskS.config ⟨some 20, none, none, none, none, none⟩ =
      ⟨20, 1000, some 500, none, false, none⟩ from rfl] at h
    exact h

/-! ## C1 — fixed precedence of the risk checks -/

/-- C1: `checkOpenPosition` evaluates its checks in the fixed order
leverage, notional, open-position count, daily loss, drawdown, stop-loss
mandate, margin; a denial carries exactly the reason of the first failing
check (`firstFailing` over the spec's ordered check list), approval means
no check failed, and an intent violating both the leverage and the notional
limits is denied with the leverage reason. -/
theorem checkOpen_precedence (s : RiskState) (now : ℤ) (params : OpenPositionParams)
    (pos : List Position) (bal : ℚ) :
    ((checkOpenPosition s now params pos bal).1.reason =
      firstFailing (orderedChecks s now params pos bal)) ∧
    ((checkOpenPosition s now params pos bal).1.allowed = true ↔
      firstFailing (orderedChecks s now params pos bal) = none) ∧
    (levCheckFails s.config params = true → sizeCheckFails s.config params = true →
      (checkOpenPosition s now params pos bal).1.reason =
        some (.leverageExceeded (params.leverage.getD 0) s.config.maxLeverage)) := by
  have main : (checkOpenPosition s now params pos bal).1.reason =
      firstFailing (orderedChecks s now params pos bal) ∧
      ((checkOpenPosition s now params pos bal).1.allowed = true ↔
        firstFailing (orderedChecks s now params pos bal) = none) := by
    rw [checkOpenPosition, orderedChecks]
    simp only [firstFailing]
    cases h1 : levCheckFails s.config params
    case true => exact ⟨rfl, by simp⟩
    case false =>
    cases h2 : sizeCheckFails s.config params
    case true => exact ⟨rfl, by simp⟩
    case false =>
    cases h3 : countCheckFails s.config params pos
    case true => exact ⟨rfl, by simp⟩
    case false =>
    cases h4 : dailyLossCheckFails s.config
        (if truthyQ s.config.maxDailyLoss then updateDailyPnl s now else s).dailyPnl
    case true => exact ⟨rfl, by simp⟩
    case false =>
    cases h5 : drawdownCheckFails s.config pos bal
    case true => exact ⟨rfl, by simp⟩
    case false =>
    cases h6 : stopLossCheckFails s.config params
    case true => exact ⟨rfl, by simp⟩
    case false =>
    cases h7 : marginCheckFails params bal
    case true => exact ⟨rfl, by simp⟩
    case false => exact ⟨rfl, by simp⟩
  refine ⟨main.1, main.2, ?_⟩
  intro h1 _
  rw [checkOpenPosition, if_pos h1]

/-- Witness for C1 at an intent violating both the leverage (30x > 10x) and
the notional ($5000 > $1000) limits: denied with the leverage reason. -/
theorem checkOpen_precedence_witness :
    ((checkOpenPosition wRiskS 0 wParamsBad [] 10000).1.reason =
      firstFailing (orderedChecks wRiskS 0 wParamsBad [] 10000)) ∧
    ((checkOpenPosition wRiskS 0 wParamsBad [] 10000).1.allowed = true ↔
      firstFailing (orderedChecks wRiskS 0 wParamsBad [] 10000) = none) ∧
    (checkOpenPosition wRiskS 0 wParamsBad [] 10000).1.reason =
      some (.leverageExceeded 30 10) := by
  have h := checkOpen_precedence wRiskS 0 wParamsBad [] 10000
  refine ⟨h.1, h.2.1, ?_⟩
  have h3 := h.2.2 (by norm_num [levCheckFails, truthyQ, wParamsBad, wRiskS])
    (by norm_num [sizeCheckFails, jsOr, wParamsBad, wRiskS])
  rw [h3]
  rfl

/-! ## C3 — handling of the `{error}` order status -/

/-- C3: on the same environment, whose order submission returns the raw
status `{error: "Insufficient margin"}`, `openPosition` reports the failure
with that reason, but `closePosition` — which never applies
`isErrorStatus` to the status of its reduce-only close order — reports
success (with the fallback order id `0`).  This contradicts the claim (and
§4.5 of the spec) for `closePosition`. -/
theorem closePosition_error_status_success :
    (openPosition wToolkit wEnv wOpenParams).1 = .err (.orderFailed "Insufficient margin") ∧
    (closePosition wToolkit wEnv wCloseParams).1 = .ok 0 := by
  have hup : jsToUpper "BTC" = "BTC" := by decide
  have hfs : formatSize 1 3 Rounding.down = .ok 1 := by norm_num [formatSize]
  have hfs2 : formatSize (1 * 100 / 100) 3 Rounding.down = .ok 1 := by norm_num [formatSize]
  constructor
  · norm_num [openPosition, riskGate, openPositionAfterGate, getAssetIndex, bookPrefetch,
      getBookTopLevels, computeOrderSize, computeOrderPrice, isLimitOrderP, truthyQ,
      wToolkit, wEnv, wOpenParams, hup, hfs, jsOr]
  · norm_num [closePosition, getAssetIndex, getBookTopLevels, truthyQ,
      wToolkit, wEnv, wCloseParams, hup, hfs2, jsOr, extractOrderId]
    rw [hfs]

/-! ## Downstream-pipeline lemmas: no risk interaction after the gate -/

theorem getAssetIndex_benign (st : ToolkitState) (env : Env) (c : String) (m : Market) :
    ToolkitEvent.riskCheck ∉ (getAssetIndex st env c m).2.2 ∧
    ∀ r, (getAssetIndex st env c m).1 ≠ .error (.riskDenied r) := by
  cases m <;>
    refine ⟨?_, ?_⟩ <;>
      simp only [getAssetIndex] <;>
        [split <;> split <;> simp; (intro r; split <;> simp);
         split <;> split <;> simp; (intro r; split <;> simp)]

theorem getBookTopLevels_snd (env : Env) (c : String) :
    (getBookTopLevels env c).2 = [.fetchBook c] := rfl

theorem getBookTopLevels_not_denied (env : Env) (c : String) :
    ∀ r, (getBookTopLevels env c).1 ≠ .error (.riskDenied r) := by
  intro r
  simp only [getBookTopLevels]
  split <;> [simp; split <;> simp]

theorem bookPrefetch_benign (env : Env) (p : String) (params : OpenPositionParams)
    (il : Bool) :
    ToolkitEvent.riskCheck ∉ (bookPrefetch env p params il).2 ∧
    ∀ r, (bookPrefetch env p params il).1 ≠ .error (.riskDenied r) := by
  have h2 := getBookTopLevels_snd env p
  have h1 := getBookTopLevels_not_denied env p
  refine ⟨?_, ?_⟩ <;> simp only [bookPrefetch]
  · split
    · split <;> simp_all
    · simp
  · intro r
    split
    · split <;> simp_all
    · simp

theorem formatSize_not_denied (x : ℚ) (d : ℕ) (rnd : Rounding) :
    ∀ r, formatSize x d rnd ≠ .error (.riskDenied r) := by
  intro r
  simp only [formatSize]
  split
  · simp
  · split
    · simp
    · split <;> simp

theorem computeOrderSize_not_denied (params : OpenPositionParams) (d : ℕ) (il : Bool)
    (bt : Option (ℚ × ℚ)) :
    ∀ r, computeOrderSize params d il bt ≠ .error (.riskDenied r) := by
  intro r
  simp only [computeOrderSize]
  split
  · split <;> (split <;> [simp; exact formatSize_not_denied _ _ _ r])
  · split
    · exact formatSize_not_denied _ _ _ r
    · simp

theorem computeOrderPrice_benign (env : Env) (p : String) (params : OpenPositionParams)
    (ds : ℚ) (ib : Bool) (bt : Option (ℚ × ℚ)) :
    ToolkitEvent.riskCheck ∉ (computeOrderPrice env p params ds ib bt).2 ∧
    ∀ r, (computeOrderPrice env p params ds ib bt).1 ≠ .error (.riskDenied r) := by
  have h2 := getBookTopLevels_snd env p
  have h1 := getBookTopLevels_not_denied env p
  refine ⟨?_, ?_⟩ <;> simp only [computeOrderPrice]
  · split
    · simp
    · split
      · simp
      · split <;> simp_all
  · intro r
    split
    · simp
    · split
      · simp
      · split <;> simp_all

theorem mem_ite_iff {α : Type} {c : Prop} [Decidable c] (a : α) (l1 l2 : List α) :
    (a ∈ if c then l1 else l2) ↔ ((c ∧ a ∈ l1) ∨ (¬ c ∧ a ∈ l2)) := by
  split <;> simp_all

theorem afterGate_benign (st1 : ToolkitState) (env : Env) (params : OpenPositionParams)
    (market : Market) :
    ToolkitEvent.riskCheck ∉ (openPositionAfterGate st1 env params market).2.2 ∧
    ∀ r, (openPositionAfterGate st1 env params market).1 ≠ .err (.riskDenied r) := by
  simp only [openPositionAfterGate]
  have hAm := (getAssetIndex_benign st1 env (jsToUpper params.coin) market).1
  have hAe := (getAssetIndex_benign st1 env (jsToUpper params.coin) market).2
  rcases hA : getAssetIndex st1 env (jsToUpper params.coin) market with ⟨ra, sta, tra⟩
  rw [hA] at hAm hAe
  rcases ra with e | ⟨ai, pn, sd⟩
  · exact ⟨by simpa using hAm, by intro r; simpa using hAe r⟩
  · simp only at hAm hAe ⊢
    have hBm := (bookPrefetch_benign env pn params (isLimitOrderP params)).1
    have hBe := (bookPrefetch_benign env pn params (isLimitOrderP params)).2
    rcases hB : bookPrefetch env pn params (isLimitOrderP params) with ⟨rb, trb⟩
    rw [hB] at hBm hBe
    rcases rb with e | bookTop
    · exact ⟨by simp [List.mem_append]; tauto, by intro r; simpa using hBe r⟩
    · simp only at hBm hBe ⊢
      have hSe := computeOrderSize_not_denied params sd (isLimitOrderP params) bookTop
      rcases hS : computeOrderSize params sd (isLimitOrderP params) bookTop with e | orderSize
      · rw [hS] at hSe
        exact ⟨by simp [List.mem_append]; tauto, by intro r; simpa using hSe r⟩
      · rw [hS] at hSe
        have hCm := (computeOrderPrice_benign env pn params st1.defaultSlippage
          (params.side == Side.long || params.side == Side.buy) bookTop).1
        have hCe := (computeOrderPrice_benign env pn params st1.defaultSlippage
          (params.side == Side.long || params.side == Side.buy) bookTop).2
        rcases hC : computeOrderPrice env pn params st1.defaultSlippage
            (params.side == Side.long || params.side == Side.buy) bookTop with ⟨rc, trc⟩
        rw [hC] at hCm hCe
        rcases rc with e | ⟨orderPrice, tif⟩
        · exact ⟨by simp [List.mem_append, mem_ite_iff]; tauto,
            by intro r; simpa using hCe r⟩
        · simp only at hCm hCe ⊢
          cases hSt : env.orderStatuses with
          | nil =>
            dsimp only
            exact ⟨by simp [List.mem_append, mem_ite_iff]; tauto, by intro r; simp⟩
          | cons status rest =>
            cases status with
            | errS msg =>
              dsimp only
              exact ⟨by simp [List.mem_append, mem_ite_iff]; tauto, by intro r; simp⟩
            | restingS oid =>
              dsimp only
              constructor
              · split <;> (simp [List.mem_append, mem_ite_iff]; try tauto)
              · intro r; split <;> simp
            | filledS oid =>
              dsimp only
              constructor
              · split <;> (simp [List.mem_append, mem_ite_iff]; try tauto)
              · intro r; split <;> simp
            | otherS =>
              dsimp only
              constructor
              · split <;> (simp [List.mem_append, mem_ite_iff]; try tauto)
              · intro r; split <;> simp

/-! ## C10 — spot orders bypass the risk gate; C4 — denial short-circuit -/

/-- C10: for every `openPosition` call with `market = 'spot'`,
`RiskManager.checkOpenPosition` is never invoked (no `riskCheck` event in
the trace) and the call can never fail with a risk denial — even when a
risk manager is configured. -/
theorem spot_bypasses_risk_gate (st : ToolkitState) (env : Env) (params : OpenPositionParams)
    (hspot : params.market = some Market.spot) :
    ToolkitEvent.riskCheck ∉ (openPosition st env params).2.2 ∧
    ∀ r, (openPosition st env params).1 ≠ .err (.riskDenied r) := by
  have hmkt : params.market.getD Market.perp = Market.spot := by rw [hspot]; rfl
  have hgate : riskGate st env params Market.spot = (.ok (), st.riskManager, []) := by
    rw [riskGate]
    cases hrm : st.riskManager with
    | none => rfl
    | some rs =>
      dsimp only
      rw [if_neg (by decide)]
  have h := afterGate_benign { st with riskManager := st.riskManager } env params Market.spot
  simp only [openPosition, hmkt, hgate]
  constructor
  · exact fun hm => h.1 (by simpa using hm)
  · intro r
    have := h.2 r
    simpa using this

/-- C4 (amended): a risk-denied `openPosition` returns the denial
immediately after the gate — the full trace is exactly the positions fetch
and balance fetch that feed the risk check, followed by the check itself;
no metadata fetch, order-book read, leverage update or order submission
happens.  (The claim's stronger wording — *no* gateway operation before the
denial — is refuted by `riskDenied_fetches_account_counterexample`.) -/
theorem riskDenial_short_circuit (st : ToolkitState) (env : Env)
    (params : OpenPositionParams) (rs : RiskState) (ps : List Position) (bal : Balance)
    (hrm : st.riskManager = some rs)
    (hmkt : params.market.getD Market.perp = Market.perp)
    (hps : env.positions = some ps) (hbal : env.balance = some bal)
    (hdenied : (checkOpenPosition rs env.now params ps bal.availableBalance).1.allowed = false) :
    openPosition st env params =
      (.err (.riskDenied (checkOpenPosition rs env.now params ps bal.availableBalance).1.reason),
       { st with riskManager := some (checkOpenPosition rs env.now params ps bal.availableBalance).2 },
       [.fetchPositions, .fetchBalance, .riskCheck]) := by
  have hgate : riskGate st env params (params.market.getD Market.perp) =
      (.error (.riskDenied (checkOpenPosition rs env.now params ps bal.availableBalance).1.reason),
       some (checkOpenPosition rs env.now params ps bal.availableBalance).2,
       [.fetchPositions, .fetchBalance, .riskCheck]) := by
    rw [riskGate, hrm, hmkt]
    dsimp only
    rw [if_pos rfl, hps, hbal]
    dsimp only
    rw [if_neg (by simp [hdenied])]
  simp only [openPosition, hgate]

theorem checkOpen_wParamsBad_eval :
    checkOpenPosition wRiskS wEnv.now wParamsBad [⟨"BTC", .long, 1, 5⟩]
        (Balance.mk 1000).availableBalance =
      ({ allowed := false, reason := some (.leverageExceeded 30 10), warnings := [] },
        wRiskS) := by
  rw [checkOpenPosition, if_pos (by norm_num [levCheckFails, truthyQ, wParamsBad, wRiskS])]
  rfl

theorem wRiskGate_eval :
    riskGate wRiskToolkit wEnv wParamsBad (wParamsBad.market.getD Market.perp) =
      (.error (.riskDenied (some (.leverageExceeded 30 10))), some wRiskS,
        [.fetchPositions, .fetchBalance, .riskCheck]) := by
  rw [riskGate, show wRiskToolkit.riskManager = some wRiskS from rfl]
  dsimp only
  rw [if_pos (show wParamsBad.market.getD Market.perp = Market.perp from rfl),
    show wEnv.positions = some [⟨"BTC", .long, 1, 5⟩] from rfl,
    show wEnv.balance = some ⟨1000⟩ from rfl]
  dsimp only
  rw [checkOpen_wParamsBad_eval]
  dsimp only
  rw [if_neg (by decide)]

/-- C4 counterexample: a risk-denied `openPosition` call *does* execute a
gateway operation before returning the denial — the positions (and
balance) fetch that the risk check consumes is in its trace. -/
theorem riskDenied_fetches_account_counterexample :
    (openPosition wRiskToolkit wEnv wParamsBad).1 =
      .err (.riskDenied (some (.leverageExceeded 30 10))) ∧
    ToolkitEvent.fetchPositions ∈ (openPosition wRiskToolkit wEnv wParamsBad).2.2 := by
  constructor
  · simp only [openPosition, wRiskGate_eval]
  · simp only [openPosition, wRiskGate_eval]
    simp

theorem riskDenial_short_circuit_witness :
    openPosition wRiskToolkit wEnv wParamsBad =
      (.err (.riskDenied (some (.leverageExceeded 30 10))),
       { wRiskToolkit with riskManager := some wRiskS },
       [.fetchPositions, .fetchBalance, .riskCheck]) := by
  rw [riskDenial_short_circuit wRiskToolkit wEnv wParamsBad wRiskS
      [⟨"BTC", .long, 1, 5⟩] ⟨1000⟩ rfl rfl rfl rfl
      (by rw [checkOpen_wParamsBad_eval]), checkOpen_wParamsBad_eval]

theorem spot_bypasses_risk_gate_witness :
    ToolkitEvent.riskCheck ∉ (openPosition wRiskToolkit wEnv wSpotParams).2.2 ∧
    ∀ r, (openPosition wRiskToolkit wEnv wSpotParams).1 ≠ .err (.riskDenied r) :=
  spot_bypasses_risk_gate wRiskToolkit wEnv wSpotParams rfl



theorem submittedOrders_append (a b : List ToolkitEvent) :
    submittedOrders (a ++ b) = submittedOrders a ++ submittedOrders b := by
  simp [submittedOrders]

theorem submittedOrders_ite {c : Prop} [Decidable c] (l1 l2 : List ToolkitEvent) :
    submittedOrders (if c then l1 else l2) =
      if c then submittedOrders l1 else submittedOrders l2 := by
  split <;> rfl

theorem submittedOrders_nil : submittedOrders [] = [] := rfl

theorem submittedOrders_cons_submit (o : OrderReq) (tr : List ToolkitEvent) :
    submittedOrders (.submitOrder o :: tr) = o :: submittedOrders tr := rfl

theorem submittedOrders_cons_fetchBook (c : String) (tr : List ToolkitEvent) :
    submittedOrders (.fetchBook c :: tr) = submittedOrders tr := rfl

theorem submittedOrders_cons_fetchPositions (tr : List ToolkitEvent) :
    submittedOrders (.fetchPositions :: tr) = submittedOrders tr := rfl

theorem submittedOrders_cons_fetchMids (tr : List ToolkitEvent) :
    submittedOrders (.fetchMids :: tr) = submittedOrders tr := rfl

theorem submittedOrders_cons_updateLeverage (a : ℤ) (ic : Bool) (lv : ℚ)
    (tr : List ToolkitEvent) :
    submittedOrders (.updateLeverage a ic lv :: tr) = submittedOrders tr := rfl

theorem riskGate_no_submit (st : ToolkitState) (env : Env) (params : OpenPositionParams)
    (m : Market) : submittedOrders (riskGate st env params m).2.2 = [] := by
  rw [riskGate]
  cases hrm : st.riskManager with
  | none => rfl
  | some rs =>
    dsimp only
    split
    · rcases env.positions with _ | ps <;> rcases env.balance with _ | bal <;>
        dsimp only <;> try rfl
      split <;> rfl
    · rfl

theorem getAssetIndex_no_submit (st : ToolkitState) (env : Env) (c : String) (m : Market) :
    submittedOrders (getAssetIndex st env c m).2.2 = [] := by
  cases m <;> simp only [getAssetIndex] <;> (split <;> split <;> rfl)

theorem getBookTopLevels_eval (env : Env) (c : String) (bid ask : ℚ)
    (hbook : env.book c = some (bid, ask)) (hbid : bid ≠ 0) (hask : ask ≠ 0) :
    getBookTopLevels env c = (.ok (bid, ask), [.fetchBook c]) := by
  rw [getBookTopLevels, hbook]
  dsimp only
  rw [if_neg (by simp [hbid, hask])]

theorem afterGate_first_order (st1 : ToolkitState) (env : Env)
    (params : OpenPositionParams) (market : Market) (ai : ℤ) (pn : String) (sd : ℕ)
    (st2 : ToolkitState) (tr2 : List ToolkitEvent) (bid ask sz : ℚ)
    (hasset : getAssetIndex st1 env (jsToUpper params.coin) market =
      (.ok (ai, pn, sd), st2, tr2))
    (hlim : isLimitOrderP params = false)
    (hbook : env.book pn = some (bid, ask)) (hbid : bid ≠ 0) (hask : ask ≠ 0)
    (hsize : computeOrderSize params sd false (some (bid, ask)) = .ok sz) :
    (submittedOrders (openPositionAfterGate st1 env params market).2.2).head? =
      some ⟨ai, params.side == Side.long || params.side == Side.buy,
        jsToPrecision (if params.side == Side.long || params.side == Side.buy then
            ask * (1 + jsOr params.slippagePercent st1.defaultSlippage / 100)
          else bid * (1 - jsOr params.slippagePercent st1.defaultSlippage / 100)) 5,
        sz, false, .limit .ioc, .na⟩ := by
  have htr2 : submittedOrders tr2 = [] := by
    have h := getAssetIndex_no_submit st1 env (jsToUpper params.coin) market
    rw [hasset] at h
    exact h
  have hgbt := getBookTopLevels_eval env pn bid ask hbook hbid hask
  have hbp : bookPrefetch env pn params false =
      (.ok (some (bid, ask)), [.fetchBook pn]) := by
    rw [bookPrefetch]
    rw [if_pos (show (!false || truthyQ params.sizeUsd) = true from rfl), hgbt]
  have hcp : computeOrderPrice env pn params st1.defaultSlippage
      (params.side == Side.long || params.side == Side.buy) (some (bid, ask)) =
      (.ok (jsToPrecision (if params.side == Side.long || params.side == Side.buy then
          ask * (1 + jsOr params.slippagePercent st1.defaultSlippage / 100)
        else bid * (1 - jsOr params.slippagePercent st1.defaultSlippage / 100)) 5,
        .ioc), []) := by
    rw [computeOrderPrice]
    rw [show (decide (params.orderType = some OrderType.limit) && truthyQ params.limitPrice) =
      isLimitOrderP params from rfl, hlim]
    rw [if_neg (by decide)]
  simp only [openPositionAfterGate, hasset, hlim, hbp, hsize, hcp]
  cases hSt : env.orderStatuses with
  | nil =>
    dsimp only
    simp [submittedOrders_append, submittedOrders_ite, submittedOrders_nil, htr2,
      submittedOrders_cons_submit, submittedOrders_cons_fetchBook,
      submittedOrders_cons_fetchMids, submittedOrders_cons_updateLeverage]
  | cons status rest =>
    cases status with
    | errS msg =>
      dsimp only
      simp [submittedOrders_append, submittedOrders_ite, submittedOrders_nil, htr2,
        submittedOrders_cons_submit, submittedOrders_cons_fetchBook,
        submittedOrders_cons_fetchMids, submittedOrders_cons_updateLeverage]
    | restingS oid =>
      dsimp only
      split <;>
        simp [submittedOrders_append, submittedOrders_ite, submittedOrders_nil, htr2,
          submittedOrders_cons_submit, submittedOrders_cons_fetchBook,
          submittedOrders_cons_fetchMids, submittedOrders_cons_updateLeverage]
    | filledS oid =>
      dsimp only
      split <;>
        simp [submittedOrders_append, submittedOrders_ite, submittedOrders_nil, htr2,
          submittedOrders_cons_submit, submittedOrders_cons_fetchBook,
          submittedOrders_cons_fetchMids, submittedOrders_cons_updateLeverage]
    | otherS =>
      dsimp only
      split <;>
        simp [submittedOrders_append, submittedOrders_ite, submittedOrders_nil, htr2,
          submittedOrders_cons_submit, submittedOrders_cons_fetchBook,
          submittedOrders_cons_fetchMids, submittedOrders_cons_updateLeverage]



theorem bookPrefetch_no_submit (env : Env) (p : String) (params : OpenPositionParams)
    (il : Bool) : submittedOrders (bookPrefetch env p params il).2 = [] := by
  have h2 := getBookTopLevels_snd env p
  simp only [bookPrefetch]
  split
  · split <;> simp_all [submittedOrders]
  · rfl

theorem afterGate_first_order_limit (st1 : ToolkitState) (env : Env)
    (params : OpenPositionParams) (market : Market) (ai : ℤ) (pn : String) (sd : ℕ)
    (st2 : ToolkitState) (tr2 tr3 : List ToolkitEvent) (bt : Option (ℚ × ℚ)) (sz : ℚ)
    (hasset : getAssetIndex st1 env (jsToUpper params.coin) market =
      (.ok (ai, pn, sd), st2, tr2))
    (hlim : isLimitOrderP params = true)
    (hbp : bookPrefetch env pn params true = (.ok bt, tr3))
    (hsize : computeOrderSize params sd true bt = .ok sz) :
    (submittedOrders (openPositionAfterGate st1 env params market).2.2).head? =
      some ⟨ai, params.side == Side.long || params.side == Side.buy,
        jsToFixed (params.limitPrice.getD 0) 5, sz, false, .limit .gtc, .na⟩ := by
  have htr2 : submittedOrders tr2 = [] := by
    have h := getAssetIndex_no_submit st1 env (jsToUpper params.coin) market
    rw [hasset] at h
    exact h
  have htr3 : submittedOrders tr3 = [] := by
    have h := bookPrefetch_no_submit env pn params true
    rw [hbp] at h
    exact h
  have hcp : computeOrderPrice env pn params st1.defaultSlippage
      (params.side == Side.long || params.side == Side.buy) bt =
      (.ok (jsToFixed (params.limitPrice.getD 0) 5, .gtc), []) := by
    rw [computeOrderPrice.eq_def]
    rw [show (decide (params.orderType = some OrderType.limit) && truthyQ params.limitPrice) =
      isLimitOrderP params from rfl, hlim]
    rw [if_pos rfl]
  simp only [openPositionAfterGate, hasset, hlim, hbp, hsize, hcp]
  cases hSt : env.orderStatuses with
  | nil =>
    dsimp only
    simp [submittedOrders_append, submittedOrders_ite, submittedOrders_nil, htr2, htr3,
      submittedOrders_cons_submit, submittedOrders_cons_fetchBook,
      submittedOrders_cons_fetchMids, submittedOrders_cons_updateLeverage]
  | cons status rest =>
    cases status with
    | errS msg =>
      dsimp only
      simp [submittedOrders_append, submittedOrders_ite, submittedOrders_nil, htr2, htr3,
        submittedOrders_cons_submit, submittedOrders_cons_fetchBook,
        submittedOrders_cons_fetchMids, submittedOrders_cons_updateLeverage]
    | restingS oid =>
      dsimp only
      split <;>
        simp [submittedOrders_append, submittedOrders_ite, submittedOrders_nil, htr2, htr3,
          submittedOrders_cons_submit, submittedOrders_cons_fetchBook,
          submittedOrders_cons_fetchMids, submittedOrders_cons_updateLeverage]
    | filledS oid =>
      dsimp only
      split <;>
        simp [submittedOrders_append, submittedOrders_ite, submittedOrders_nil, htr2, htr3,
          submittedOrders_cons_submit, submittedOrders_cons_fetchBook,
          submittedOrders_cons_fetchMids, submittedOrders_cons_updateLeverage]
    | otherS =>
      dsimp only
      split <;>
        simp [submittedOrders_append, submittedOrders_ite, submittedOrders_nil, htr2, htr3,
          submittedOrders_cons_submit, submittedOrders_cons_fetchBook,
          submittedOrders_cons_fetchMids, submittedOrders_cons_updateLeverage]



theorem closePosition_first_order (st : ToolkitState) (env : Env)
    (params : ClosePositionParams) (ps : List Position) (pos : Position)
    (ai : ℤ) (pn : String) (sd : ℕ) (st2 : ToolkitState) (tr2 : List ToolkitEvent)
    (bid ask csz : ℚ)
    (hps : env.positions = some ps)
    (hfind : ps.find? (fun p => jsToUpper p.coin == jsToUpper params.coin) = some pos)
    (hasset : getAssetIndex st env (jsToUpper params.coin) .perp =
      (.ok (ai, pn, sd), st2, tr2))
    (hsize : formatSize (pos.size * jsOr params.percent 100 / 100) sd .down = .ok csz)
    (hbook : env.book (jsToUpper params.coin) = some (bid, ask))
    (hbid : bid ≠ 0) (hask : ask ≠ 0) :
    (submittedOrders (closePosition st env params).2.2).head? =
      some ⟨ai, pos.side == Side.short,
        jsToPrecision (if pos.side == Side.short then
            ask * (1 + jsOr params.slippagePercent st.defaultSlippage / 100)
          else bid * (1 - jsOr params.slippagePercent st.defaultSlippage / 100)) 5,
        csz, true, .limit .ioc, .na⟩ := by
  have htr2 : submittedOrders tr2 = [] := by
    have h := getAssetIndex_no_submit st env (jsToUpper params.coin) .perp
    rw [hasset] at h
    exact h
  have hgbt := getBookTopLevels_eval env (jsToUpper params.coin) bid ask hbook hbid hask
  simp only [closePosition, hps, hfind, hasset, hsize, hgbt]
  cases hSt : env.orderStatuses with
  | nil =>
    dsimp only
    simp [submittedOrders_append, submittedOrders_ite, submittedOrders_nil, htr2,
      submittedOrders_cons_submit, submittedOrders_cons_fetchBook,
      submittedOrders_cons_fetchPositions,
      submittedOrders_cons_fetchMids, submittedOrders_cons_updateLeverage]
  | cons status rest =>
    dsimp only
    simp [submittedOrders_append, submittedOrders_ite, submittedOrders_nil, htr2,
      submittedOrders_cons_submit, submittedOrders_cons_fetchBook,
      submittedOrders_cons_fetchPositions,
      submittedOrders_cons_fetchMids, submittedOrders_cons_updateLeverage]

/-- C2 (amended): for every market (non-limit) order that passes the risk
gate, resolves its asset and sizes successfully against a book
`(bestBid, bestAsk)`, the first order submitted to the exchange carries the
price `bestAsk * (1 + s)` for a buy and `bestBid * (1 - s)` for a sell
(`s` the caller's `slippagePercent` over 100, defaulting to the configured
slippage), *rounded to the nearest* 5 significant figures with ties away
from zero (JS `toPrecision(5)`) — not truncated.  On the claim's round-trip
instance the two notions coincide: `101 * 1.01` gives `102.01` and
`100 * 0.99` gives `99`.  The same holds of `closePosition`'s duplicated
pricing implementation: its reduce-only close order buys back a short at
`bestAsk * (1 + s)` and sells a long at `bestBid * (1 - s)`, likewise
rounded by `toPrecision(5)` (final conjunct).  (Rounding and truncation
differ in general: `marketOrder_price_not_truncated`.) -/
theorem marketOrder_price_rounded (st : ToolkitState) (env : Env)
    (params : OpenPositionParams) (rm : Option RiskState) (tr1 : List ToolkitEvent)
    (ai : ℤ) (pn : String) (sd : ℕ) (st2 : ToolkitState) (tr2 : List ToolkitEvent)
    (bid ask sz : ℚ)
    (hgate : riskGate st env params (params.market.getD Market.perp) = (.ok (), rm, tr1))
    (hasset : getAssetIndex { st with riskManager := rm } env (jsToUpper params.coin)
        (params.market.getD Market.perp) = (.ok (ai, pn, sd), st2, tr2))
    (hlim : isLimitOrderP params = false)
    (hbook : env.book pn = some (bid, ask)) (hbid : bid ≠ 0) (hask : ask ≠ 0)
    (hsize : computeOrderSize params sd false (some (bid, ask)) = .ok sz) :
    (submittedOrders (openPosition st env params).2.2).head? =
      some ⟨ai, params.side == Side.long || params.side == Side.buy,
        jsToPrecision (if params.side == Side.long || params.side == Side.buy then
            ask * (1 + jsOr params.slippagePercent st.defaultSlippage / 100)
          else bid * (1 - jsOr params.slippagePercent st.defaultSlippage / 100)) 5,
        sz, false, .limit .ioc, .na⟩ ∧
    jsToPrecision (101 * (1 + (1 : ℚ) / 100)) 5 = 10201 / 100 ∧
    jsToPrecision (100 * (1 - (1 : ℚ) / 100)) 5 = 99 ∧
    (∀ (cst : ToolkitState) (cenv : Env) (cp : ClosePositionParams)
      (cps : List Position) (pos : Position) (cai : ℤ) (cpn : String) (csd : ℕ)
      (cst2 : ToolkitState) (ctr2 : List ToolkitEvent) (cbid cask csz : ℚ),
      cenv.positions = some cps →
      cps.find? (fun p => jsToUpper p.coin == jsToUpper cp.coin) = some pos →
      getAssetIndex cst cenv (jsToUpper cp.coin) .perp =
        (.ok (cai, cpn, csd), cst2, ctr2) →
      formatSize (pos.size * jsOr cp.percent 100 / 100) csd .down = .ok csz →
      cenv.book (jsToUpper cp.coin) = some (cbid, cask) → cbid ≠ 0 → cask ≠ 0 →
      (submittedOrders (closePosition cst cenv cp).2.2).head? =
        some ⟨cai, pos.side == Side.short,
          jsToPrecision (if pos.side == Side.short then
              cask * (1 + jsOr cp.slippagePercent cst.defaultSlippage / 100)
            else cbid * (1 - jsOr cp.slippagePercent cst.defaultSlippage / 100)) 5,
          csz, true, .limit .ioc, .na⟩) := by
  refine ⟨?_, ?_, ?_, ?_⟩
  · have h1 : submittedOrders tr1 = [] := by
      have h := riskGate_no_submit st env params (params.market.getD Market.perp)
      rw [hgate] at h
      exact h
    have h2 := afterGate_first_order { st with riskManager := rm } env params
      (params.market.getD Market.perp) ai pn sd st2 tr2 bid ask sz hasset hlim hbook
      hbid hask hsize
    simp only [openPosition, hgate]
    rw [submittedOrders_append, h1, List.nil_append]
    exact h2
  · rw [jsToPrecision_eval 5 2 (by norm_num) (by norm_num) (by norm_num)]
    norm_num
  · rw [jsToPrecision_eval 5 1 (by norm_num) (by norm_num) (by norm_num)]
    norm_num
  · intro cst cenv cp cps pos cai cpn csd cst2 ctr2 cbid cask csz hps hfind hasset2
      hsize2 hbook2 hbid2 hask2
    exact closePosition_first_order cst cenv cp cps pos cai cpn csd cst2 ctr2
      cbid cask csz hps hfind hasset2 hsize2 hbook2 hbid2 hask2

/-- C5 (amended): for every limit order (orderType `limit` with a truthy
caller-supplied `limitPrice`) that passes the risk gate, resolves its asset
and sizes successfully, the first order submitted to the exchange carries
the price `limitPrice.toFixed(5)` — the caller's number rounded to five
decimal places, GTC — which equals the caller's number verbatim exactly
when that number is representable in five decimals
(`limitPrice * 10^5 ∈ ℤ`).  (A price that is not representable is altered:
`limitOrder_price_not_verbatim`.) -/
theorem limitOrder_price_toFixed (st : ToolkitState) (env : Env)
    (params : OpenPositionParams) (rm : Option RiskState) (tr1 : List ToolkitEvent)
    (ai : ℤ) (pn : String) (sd : ℕ) (st2 : ToolkitState) (tr2 tr3 : List ToolkitEvent)
    (bt : Option (ℚ × ℚ)) (sz : ℚ)
    (hgate : riskGate st env params (params.market.getD Market.perp) = (.ok (), rm, tr1))
    (hasset : getAssetIndex { st with riskManager := rm } env (jsToUpper params.coin)
        (params.market.getD Market.perp) = (.ok (ai, pn, sd), st2, tr2))
    (hlim : isLimitOrderP params = true)
    (hbp : bookPrefetch env pn params true = (.ok bt, tr3))
    (hsize : computeOrderSize params sd true bt = .ok sz) :
    (submittedOrders (openPosition st env params).2.2).head? =
      some ⟨ai, params.side == Side.long || params.side == Side.buy,
        jsToFixed (params.limitPrice.getD 0) 5, sz, false, .limit .gtc, .na⟩ ∧
    (∀ m : ℤ, params.limitPrice.getD 0 * 10 ^ 5 = (m : ℚ) →
      jsToFixed (params.limitPrice.getD 0) 5 = params.limitPrice.getD 0) := by
  constructor
  · have h1 : submittedOrders tr1 = [] := by
      have h := riskGate_no_submit st env params (params.market.getD Market.perp)
      rw [hgate] at h
      exact h
    have h2 := afterGate_first_order_limit { st with riskManager := rm } env params
      (params.market.getD Market.perp) ai pn sd st2 tr2 tr3 bt sz hasset hlim hbp hsize
    simp only [openPosition, hgate]
    rw [submittedOrders_append, h1, List.nil_append]
    exact h2
  · intro m hm
    exact jsToFixed_eq_self m hm



theorem wPerpAsset_eval (E : Env) (hE : E.perpAssets = wEnv.perpAssets) :
    getAssetIndex { wToolkit with riskManager := none } E "BTC" Market.perp =
      (.ok (0, "BTC", 3), { wToolkit with riskManager := none, perpMapLoaded := true },
        [.fetchAssetMeta .perp]) := by
  rw [getAssetIndex]
  dsimp only
  rw [show jsToUpper "BTC" = "BTC" by decide, hE,
    show wEnv.perpAssets "BTC" = some ⟨0, 3⟩ by decide]
  dsimp only
  rw [if_neg (by decide)]

/-- C2 counterexample: a buy-market order against a book with best ask
`99.016` and default slippage `1%` has raw price
`99.016 * 1.01 = 100.00616`; the submitted price is the *rounded*
`100.01`, while truncation to 5 significant figures gives `100` — the
claim's "truncated" price is not the submitted one. -/
theorem marketOrder_price_not_truncated :
    (submittedOrders (openPosition wToolkit wEnvRound wOpenParams).2.2).head? =
      some ⟨0, true, 10001 / 100, 1, false, .limit .ioc, .na⟩ ∧
    truncToSigFigs (99016 / 1000 * (1 + (1 : ℚ) / 100)) 5 = 100 ∧
    (10001 / 100 : ℚ) ≠ truncToSigFigs (99016 / 1000 * (1 + (1 : ℚ) / 100)) 5 := by
  have hup : jsToUpper "BTC" = "BTC" := by decide
  have hfs : formatSize 1 3 Rounding.down = .ok 1 := by norm_num [formatSize]
  refine ⟨?_, ?_, ?_⟩
  · norm_num [openPosition, riskGate, openPositionAfterGate, getAssetIndex, bookPrefetch,
      getBookTopLevels, computeOrderSize, computeOrderPrice, isLimitOrderP, truthyQ,
      wToolkit, wEnvRound, wEnv, wOpenParams, hup, hfs, jsOr, submittedOrders]
    rw [jsToPrecision_eval 5 2 (by norm_num) (by norm_num) (by norm_num)]
    norm_num
  · rw [truncToSigFigs_eval 5 2 (by norm_num) (by norm_num) (by norm_num)]
    norm_num
  · rw [truncToSigFigs_eval 5 2 (by norm_num) (by norm_num) (by norm_num)]
    norm_num

theorem marketOrder_price_rounded_witness :
    (submittedOrders (openPosition wToolkit wEnv wOpenParams).2.2).head? =
      some ⟨0, true, 10201 / 100, 1, false, .limit .ioc, .na⟩ ∧
    jsToPrecision (101 * (1 + (1 : ℚ) / 100)) 5 = 10201 / 100 ∧
    (submittedOrders (closePosition wToolkit wEnv wCloseParams).2.2).head? =
      some ⟨0, false, 99, 1, true, .limit .ioc, .na⟩ := by
  have h := marketOrder_price_rounded wToolkit wEnv wOpenParams none [] 0 "BTC" 3
    ({ wToolkit with riskManager := none, perpMapLoaded := true }) [.fetchAssetMeta .perp]
    100 101 1 rfl
    (by
      rw [show jsToUpper wOpenParams.coin = "BTC" by decide,
        show wOpenParams.market.getD Market.perp = Market.perp from rfl]
      exact wPerpAsset_eval wEnv rfl)
    rfl rfl (by norm_num) (by norm_num)
    (by norm_num [computeOrderSize, wOpenParams, formatSize])
  refine ⟨?_, h.2.1, ?_⟩
  · rw [h.1]
    norm_num [wOpenParams, wToolkit, jsOr]
    rw [jsToPrecision_eval 5 2 (by norm_num) (by norm_num) (by norm_num)]
    norm_num
  · have hclose := h.2.2.2 wToolkit wEnv wCloseParams [⟨"BTC", .long, 1, 5⟩]
      ⟨"BTC", .long, 1, 5⟩ 0 "BTC" 3
      ({ wToolkit with riskManager := none, perpMapLoaded := true })
      [.fetchAssetMeta .perp] 100 101 1 rfl rfl
      (by
        rw [show jsToUpper wCloseParams.coin = "BTC" by decide]
        exact wPerpAsset_eval wEnv rfl)
      (by norm_num [formatSize, wCloseParams, jsOr]) rfl (by norm_num) (by norm_num)
    have hside : ((⟨"BTC", Side.long, 1, 5⟩ : Position).side == Side.short) = false := rfl
    rw [hclose]
    norm_num [wCloseParams, wToolkit, jsOr, hside]
    rw [jsToPrecision_eval 5 1 (by norm_num) (by norm_num) (by norm_num)]
    norm_num

theorem limitOrder_price_toFixed_witness :
    (submittedOrders (openPosition wToolkit wEnv wLimit2Params).2.2).head? =
      some ⟨0, true, 7 / 2, 1, false, .limit .gtc, .na⟩ ∧
    jsToFixed ((7 : ℚ) / 2) 5 = 7 / 2 := by
  have h := limitOrder_price_toFixed wToolkit wEnv wLimit2Params none [] 0 "BTC" 3
    ({ wToolkit with riskManager := none, perpMapLoaded := true }) [.fetchAssetMeta .perp]
    [] none 1 rfl
    (by
      rw [show jsToUpper wLimit2Params.coin = "BTC" by decide,
        show wLimit2Params.market.getD Market.perp = Market.perp from rfl]
      exact wPerpAsset_eval wEnv rfl)
    (by norm_num [isLimitOrderP, wLimit2Params])
    (by norm_num [bookPrefetch, wLimit2Params])
    (by norm_num [computeOrderSize, wLimit2Params, formatSize])
  have hfix : jsToFixed ((7 : ℚ) / 2) 5 = 7 / 2 := by
    have := h.2 350000 (by norm_num [wLimit2Params])
    simpa [wLimit2Params] using this
  refine ⟨?_, hfix⟩
  rw [h.1]
  norm_num [wLimit2Params, hfix]

/-- C5 counterexample: a limit order at the caller's price `1.234567` is
submitted at `toFixed(5)`'s `1.23457` — not the caller's number
verbatim. -/
theorem limitOrder_price_not_verbatim :
    (submittedOrders (openPosition wToolkit wEnv wLimitParams).2.2).head? =
      some ⟨0, true, 123457 / 100000, 1, false, .limit .gtc, .na⟩ ∧
    jsToFixed ((1234567 : ℚ) / 1000000) 5 = 123457 / 100000 ∧
    ((123457 : ℚ) / 100000) ≠ 1234567 / 1000000 := by
  have hup : jsToUpper "BTC" = "BTC" := by decide
  have hfs : formatSize 1 3 Rounding.down = .ok 1 := by norm_num [formatSize]
  have hfix : jsToFixed ((1234567 : ℚ) / 1000000) 5 = 123457 / 100000 := by
    rw [jsToFixed]
    norm_num
  refine ⟨?_, hfix, by norm_num⟩
  norm_num [openPosition, riskGate, openPositionAfterGate, getAssetIndex, bookPrefetch,
    getBookTopLevels, computeOrderSize, computeOrderPrice, isLimitOrderP, truthyQ,
    wToolkit, wEnv, wLimitParams, hup, hfs, hfix, jsOr, submittedOrders]

end HlAgent
